import Mathlib

/-!
Verification of the VidLiSync real-time translation subsystem
(`backend/app/ai_services/translation_pipeline.py`,
`backend/app/ai_services/websocket_handler.py`,
`backend/app/ai_services/vs_presenter_handler.py`,
`backend/app/routers/translation.py`).

The Python code is shallowly embedded: byte strings become `List Nat`,
wall-clock readings become an abstract `clock : Nat → ℚ` giving the value of
the k-th `time.time()` call, adapter (model-service) calls become
`Except String _` outcomes where `.error e` models the call raising an
exception with message `e`, and in-place mutation of `self` becomes explicit
state passing.  Every fallible Python method is embedded as a function
returning `Except String _`, with `.error` standing for an exception that
escapes the method.
-/

namespace VidLiSync

/-- Raw audio, image and video payloads; bytes are modelled as natural numbers. -/
abbrev Bytes := List Nat

/-- Python truthiness of a possibly-absent byte string (`None` and `b""` are falsy). -/
def pyTruthyBytes : Option Bytes → Bool
  | none => false
  | some b => !b.isEmpty

/-- Python truthiness of a possibly-absent string (`None` and `""` are falsy). -/
def pyTruthyStr : Option String → Bool
  | none => false
  | some s => !s.isEmpty

/-- Python `not s.strip()`: `strip` removes leading and trailing whitespace, so
the stripped string is empty exactly when every character is whitespace. -/
def py_strip_empty (s : String) : Bool :=
  s.data.all Char.isWhitespace

/-- Configuration constant `LATENCY_TARGET_MS = 400` (`config.py` line 29). -/
def LATENCY_TARGET_MS : ℚ := 400

/-- Configuration constant `TRANSLATION_ACCURACY_THRESHOLD = 0.95` (`config.py` line 49). -/
def TRANSLATION_ACCURACY_THRESHOLD : ℚ := 19/20

/-- Configuration constant `VOICE_QUALITY_THRESHOLD = 0.8` (`config.py` line 50). -/
def VOICE_QUALITY_THRESHOLD : ℚ := 4/5

/-- Result dictionary of `WhisperService.transcribe_audio` as consumed by the
coordinator (`translation_pipeline.py` lines 112-124): keys `text`, `language`,
`confidence`. -/
structure TranscriptionResult where
  text : String
  language : String
  confidence : ℚ
  deriving DecidableEq, Repr

/-- Result dictionary of `GoogleTranslateService.translate_text` as consumed by
the coordinator (lines 133-143): keys `translatedText` and `confidence`. -/
structure TranslationOutcome where
  translatedText : String
  confidence : ℚ
  deriving DecidableEq, Repr

/-- Outcomes of the five adapter calls the coordinator can make during one
`process_speech_to_speech` invocation.  Each adapter is called at most once per
invocation, so one outcome per adapter suffices; `.error e` models the awaited
call raising an exception whose `str` is `e`. -/
structure Adapters where
  transcribe_audio : Except String TranscriptionResult
  translate_text : Except String TranslationOutcome
  optimize_for_speech : Except String String
  clone_voice : Except String Bytes
  generate_lip_sync : Except String Bytes
  deriving Repr

/-- Voice profile dictionary; the coordinator only reads
`voice_profile_data.get("quality_score", 0.8)` (lines 189, 206, 211). -/
structure VoiceProfile where
  quality_score : Option ℚ
  deriving DecidableEq, Repr

/-- Pipeline stages, used to log which adapter calls an invocation performed. -/
inductive Stage where
  | stt
  | textTranslate
  | optimize
  | tts
  | lipSync
  deriving DecidableEq, Repr

/-- The `quality_metrics` sub-dictionary of a successful result (lines 202-212). -/
structure QualityMetrics where
  overall_quality : ℚ
  stt_confidence : ℚ
  translation_confidence : ℚ
  voice_quality : ℚ
  meets_accuracy_threshold : Bool
  meets_voice_threshold : Bool
  deriving DecidableEq, Repr

/-- The `performance_metrics` sub-dictionary of a result.  An error result
(lines 261-269) carries only `total_time_ms` and `meets_latency_target`, so the
per-stage timings are optional. -/
structure PerfBreakdown where
  total_time_ms : ℚ
  stt_time_ms : Option ℚ
  translation_time_ms : Option ℚ
  tts_time_ms : Option ℚ
  lip_sync_time_ms : Option ℚ
  meets_latency_target : Bool
  deriving DecidableEq, Repr

/-- PipelineResult: the dictionary returned by one `process_speech_to_speech`
pass (success shape at lines 193-223, error shape at lines 261-269).  Fields
absent from the error dictionary are modelled as `Option`; the wall-clock
`timestamp` string is not modelled. -/
structure PipelineResult where
  success : Bool
  error : Option String
  source_text : Option String
  translated_text : Option String
  optimized_text : Option String
  synthesized_audio : Option Bytes
  lip_sync_video : Option Bytes
  detected_language : Option String
  target_language : Option String
  quality_metrics : Option QualityMetrics
  performance_metrics : PerfBreakdown
  deriving DecidableEq, Repr

/-- Process-wide `performance_metrics` counters of the coordinator
(`translation_pipeline.py` lines 32-37). -/
structure PerfMetrics where
  total_requests : Nat
  successful_requests : Nat
  average_latency_ms : ℚ
  active_streams : Nat
  deriving DecidableEq, Repr

/-- TranslationPipeline._create_error_result (lines 257-269): a failure result
carrying the error message and the elapsed time from `start_time` to the
`time.time()` reading taken inside the helper. -/
def create_error_result (error_message : String) (start_time now : ℚ) : PipelineResult :=
  { success := false
    error := some error_message
    source_text := none
    translated_text := none
    optimized_text := none
    synthesized_audio := none
    lip_sync_video := none
    detected_language := none
    target_language := none
    quality_metrics := none
    performance_metrics :=
      { total_time_ms := (now - start_time) * 1000
        stt_time_ms := none
        translation_time_ms := none
        tts_time_ms := none
        lip_sync_time_ms := none
        meets_latency_target := false } }

/-- TranslationPipeline._calculate_quality_score (lines 236-255): weighted
average with weights 0.3 / 0.4 / 0.3, clamped to [0, 1]. -/
def calculate_quality_score (stt_confidence translation_confidence voice_quality : ℚ) : ℚ :=
  min 1 (max 0 (stt_confidence * (3/10) + translation_confidence * (4/10) +
    voice_quality * (3/10)))

/-- TranslationPipeline._update_average_latency (lines 271-283).  Note that the
code reads `successful_requests` (already incremented by the caller) and sets
the average directly when it equals 1; otherwise it applies exponential
smoothing with alpha = 0.1. -/
def update_average_latency (m : PerfMetrics) (new_latency : ℚ) : PerfMetrics :=
  if m.successful_requests = 1 then
    { m with average_latency_ms := new_latency }
  else
    { m with average_latency_ms := (1/10) * new_latency + (1 - 1/10) * m.average_latency_ms }

/-- Outcome of one `process_speech_to_speech` invocation that did not raise:
the returned result, the coordinator metrics after the call, and the ordered
log of adapter stages that were invoked. -/
structure ProcOutcome where
  result : PipelineResult
  metrics : PerfMetrics
  invoked : List Stage
  deriving DecidableEq, Repr

/-- TranslationPipeline.process_speech_to_speech (lines 76-234).  `clock k` is
the value of the k-th `time.time()` call of the invocation (k = 0 is
`start_time` at line 102).  A `.error` return models the `RuntimeError` raised
before the `try` block when the pipeline is not initialized (lines 99-100); all
exceptions raised inside the `try` block are caught at line 232 and converted
to a failure result, so every other path returns `.ok`.  The
`include_lip_sync and face_image` test at line 167 uses Python truthiness, so
an empty face image behaves like an absent one. -/
def process_speech_to_speech (is_initialized : Bool) (metrics : PerfMetrics)
    (clock : Nat → ℚ) (ad : Adapters)
    (audio_data : Bytes) (target_language : String) (voice_profile_data : VoiceProfile)
    (source_language : Option String)
    (include_lip_sync : Bool) (face_image : Option Bytes) :
    Except String ProcOutcome :=
  let _ := audio_data
  let _ := source_language
  if ¬ is_initialized then
    .error "Translation pipeline not initialized"
  else
    let start_time := clock 0
    let m1 : PerfMetrics := { metrics with total_requests := metrics.total_requests + 1 }
    let stt_start := clock 1
    match ad.transcribe_audio with
    | .error e => .ok ⟨create_error_result e start_time (clock 2), m1, [.stt]⟩
    | .ok tr =>
      let stt_time := (clock 2 - stt_start) * 1000
      let source_text := tr.text
      let detected_language := tr.language
      let stt_confidence := tr.confidence
      if py_strip_empty source_text then
        .ok ⟨create_error_result "No speech detected in audio" start_time (clock 3), m1, [.stt]⟩
      else
        let translate_start := clock 3
        match ad.translate_text with
        | .error e =>
          .ok ⟨create_error_result e start_time (clock 4), m1, [.stt, .textTranslate]⟩
        | .ok tro =>
          let translate_time := (clock 4 - translate_start) * 1000
          let translated_text := tro.translatedText
          let translation_confidence := tro.confidence
          match ad.optimize_for_speech with
          | .error e =>
            .ok ⟨create_error_result e start_time (clock 5), m1,
              [.stt, .textTranslate, .optimize]⟩
          | .ok optimized_text =>
            let tts_start := clock 5
            match ad.clone_voice with
            | .error e =>
              .ok ⟨create_error_result e start_time (clock 6), m1,
                [.stt, .textTranslate, .optimize, .tts]⟩
            | .ok synthesized_audio =>
              let tts_time := (clock 6 - tts_start) * 1000
              let doLipSync := include_lip_sync && pyTruthyBytes face_image
              let lipStage : List Stage := if doLipSync then [.lipSync] else []
              let lipOutcome : Except String (Option Bytes × ℚ × Nat) :=
                if doLipSync then
                  match ad.generate_lip_sync with
                  | .error e => .error e
                  | .ok video => .ok (some video, (clock 8 - clock 7) * 1000, 9)
                else
                  .ok (none, 0, 7)
              match lipOutcome with
              | .error e =>
                .ok ⟨create_error_result e start_time (clock 8), m1,
                  [.stt, .textTranslate, .optimize, .tts, .lipSync]⟩
              | .ok (lip_sync_data, lip_sync_time, endIdx) =>
                let total_time := (clock endIdx - start_time) * 1000
                let meets_latency := decide (total_time ≤ LATENCY_TARGET_MS)
                let voice_quality := voice_profile_data.quality_score.getD (4/5)
                let quality_score :=
                  calculate_quality_score stt_confidence translation_confidence voice_quality
                let result : PipelineResult :=
                  { success := true
                    error := none
                    source_text := some source_text
                    translated_text := some translated_text
                    optimized_text := some optimized_text
                    synthesized_audio := some synthesized_audio
                    lip_sync_video := lip_sync_data
                    detected_language := some detected_language
                    target_language := some target_language
                    quality_metrics := some
                      { overall_quality := quality_score
                        stt_confidence := stt_confidence
                        translation_confidence := translation_confidence
                        voice_quality := voice_quality
                        meets_accuracy_threshold :=
                          decide (TRANSLATION_ACCURACY_THRESHOLD ≤ stt_confidence) &&
                          decide (TRANSLATION_ACCURACY_THRESHOLD ≤ translation_confidence)
                        meets_voice_threshold :=
                          decide (VOICE_QUALITY_THRESHOLD ≤ voice_quality) }
                    performance_metrics :=
                      { total_time_ms := total_time
                        stt_time_ms := some stt_time
                        translation_time_ms := some translate_time
                        tts_time_ms := some tts_time
                        lip_sync_time_ms := some lip_sync_time
                        meets_latency_target := meets_latency } }
                let m2 : PerfMetrics :=
                  { m1 with successful_requests := m1.successful_requests + 1 }
                let m3 := update_average_latency m2 total_time
                .ok ⟨result, m3, [.stt, .textTranslate, .optimize, .tts] ++ lipStage⟩

/-! ## Python dictionaries as association lists

`self.active_streams` and the room-state dictionaries are Python `dict`s with
string keys.  They are embedded as association lists; `ainsert` replaces the
first entry with the given key or appends (which, on lists with no duplicate
keys, is exactly `d[k] = v`), and `aerase` removes the first entry with the
key (`d.pop(k)` / `del d[k]`). -/

/-- Dictionary lookup `d.get(k)` / `k in d`. -/
def alookup {α : Type} : List (String × α) → String → Option α
  | [], _ => none
  | e :: rest, k => if e.1 = k then some e.2 else alookup rest k

/-- Dictionary update `d[k] = v`. -/
def ainsert {α : Type} : List (String × α) → String → α → List (String × α)
  | [], k, v => [(k, v)]
  | e :: rest, k, v => if e.1 = k then (k, v) :: rest else e :: ainsert rest k v

/-- Dictionary removal `d.pop(k)` / `del d[k]` (a no-op on an absent key, which
the code rules out with an `in` test wherever it matters). -/
def aerase {α : Type} : List (String × α) → String → List (String × α)
  | [], _ => []
  | e :: rest, k => if e.1 = k then rest else e :: aerase rest k

/-- A dictionary embedding is well formed when no key occurs twice, as is true
of every Python `dict`. -/
def KeysNodup {α : Type} (t : List (String × α)) : Prop :=
  (t.map Prod.fst).Nodup

/-! ## Stream Session Manager
(`translation_pipeline.py` lines 285-389) -/

/-- One entry of `self.active_streams` (lines 312-320).  The wall-clock
`created_at` timestamp is not modelled. -/
structure StreamSession where
  user_id : String
  voice_profile : VoiceProfile
  target_language : String
  source_language : Option String
  chunk_count : Nat
  buffer : List Bytes
  deriving DecidableEq, Repr

/-- The `self.active_streams` dictionary, session id to session. -/
abbrev StreamTable := List (String × StreamSession)

/-- The coordinator as invoked by the streaming methods: the partial
application of `process_speech_to_speech` to the pipeline's initialized state,
adapters and clock, taking the combined audio, the session's target language,
voice profile and source language (lines 354-359 and 377-382; `include_lip_sync`
and `face_image` keep their defaults there).  It is a total function because a
stream session can only exist on an initialized pipeline, where
`process_speech_to_speech` never raises. -/
abbrev Coordinator := Bytes → String → VoiceProfile → Option String → PipelineResult

/-- TranslationPipeline.create_stream_session (lines 285-325).  Returns the
result (`.error` models the two `RuntimeError` raises), the active-streams
table and the `active_streams` metric after the call; on a raise both are
unchanged because the code raises before mutating anything.
`max_concurrent_streams` is the environment-configured `MAX_CONCURRENT_STREAMS`
(`config.py` line 25) and `now` is `int(time.time())`. -/
def create_stream_session (is_initialized : Bool) (max_concurrent_streams : Nat)
    (streams : StreamTable) (active_streams_metric : Nat)
    (user_id : String) (voice_profile_data : VoiceProfile)
    (target_language : String) (source_language : Option String) (now : Nat) :
    Except String String × StreamTable × Nat :=
  if ¬ is_initialized then
    (.error "Translation pipeline not initialized", streams, active_streams_metric)
  else if max_concurrent_streams ≤ streams.length then
    (.error "Maximum concurrent streams reached", streams, active_streams_metric)
  else
    let session_id := "stream_" ++ user_id ++ "_" ++ toString now
    let streams2 := ainsert streams session_id
      { user_id := user_id
        voice_profile := voice_profile_data
        target_language := target_language
        source_language := source_language
        chunk_count := 0
        buffer := [] }
    (.ok session_id, streams2, streams2.length)

/-- Non-error result of `process_stream_chunk`: either the buffering
acknowledgement `{"success": True, "buffering": True}` (line 363) or the
result dictionary returned by the coordinator on a flush (line 361). -/
inductive ChunkResult where
  | buffering
  | flushed (result : PipelineResult)
  deriving DecidableEq, Repr

/-- TranslationPipeline.process_stream_chunk (lines 327-363).  Returns the
result, the updated table, and the list of byte payloads handed to the
coordinator (so "no pipeline invocation" is the empty list).  `.error` models
the `ValueError` raised on an unknown session id. -/
def process_stream_chunk (coordinator : Coordinator) (streams : StreamTable)
    (session_id : String) (audio_chunk : Bytes) :
    Except String (ChunkResult × StreamTable × List Bytes) :=
  match alookup streams session_id with
  | none => .error ("Invalid session ID: " ++ session_id)
  | some session =>
    let s1 : StreamSession :=
      { session with
        chunk_count := session.chunk_count + 1
        buffer := session.buffer ++ [audio_chunk] }
    if 5 ≤ s1.buffer.length then
      let combined_audio := s1.buffer.flatten
      let s2 : StreamSession := { s1 with buffer := [] }
      .ok (.flushed (coordinator combined_audio session.target_language
              session.voice_profile session.source_language),
           ainsert streams session_id s2, [combined_audio])
    else
      .ok (.buffering, ainsert streams session_id s1, [])

/-- The first half of `close_stream_session`:
`session = self.active_streams.pop(session_id)` followed by the
`active_streams` metric update (lines 367-371).  This is the state the manager
is in while the final flush of the second half runs (the `await` at line 377
suspends with the session already removed). -/
def close_stream_session_popped (streams : StreamTable) (session_id : String) :
    Option (StreamSession × StreamTable) :=
  match alookup streams session_id with
  | none => none
  | some session => some (session, aerase streams session_id)

/-- The dictionary returned by `close_stream_session` (lines 385-389), minus
the constant `"session_closed": True` field. -/
structure CloseResult where
  chunks_processed : Nat
  final_result : Option PipelineResult
  deriving DecidableEq, Repr

/-- TranslationPipeline.close_stream_session (lines 365-389).  Returns the
close summary, the table after the call, and the list of byte payloads handed
to the coordinator.  `.error` models the `ValueError` on an unknown id. -/
def close_stream_session (coordinator : Coordinator) (streams : StreamTable)
    (session_id : String) :
    Except String (CloseResult × StreamTable × List Bytes) :=
  match close_stream_session_popped streams session_id with
  | none => .error ("Invalid session ID: " ++ session_id)
  | some (session, remaining) =>
    if session.buffer.isEmpty then
      .ok (⟨session.chunk_count, none⟩, remaining, [])
    else
      let combined_audio := session.buffer.flatten
      .ok (⟨session.chunk_count,
            some (coordinator combined_audio session.target_language
              session.voice_profile session.source_language)⟩,
           remaining, [combined_audio])

/-! ## Connection Gateway: the audio_chunk message
(`websocket_handler.py` lines 184-228) -/

/-- Messages the audio-chunk handler can send on the connection: the
`_send_error` envelope or the `translation_result` message of lines 212-221. -/
inductive GatewayMsg where
  | errorMsg (message : String)
  | translationResult (session_id : String) (source_text translated_text : Option String)
      (synthesized_audio : Bytes)
  deriving DecidableEq, Repr

/-- Observable outcome of `_handle_audio_chunk`: the messages sent on the
connection, the stream table afterwards, and whether the handler cleared the
connection's session or removed the connection (no path of the handler does
either, which the embedding makes explicit). -/
structure ChunkHandlerOutcome where
  sent : List GatewayMsg
  streams : StreamTable
  session_cleared : Bool
  connection_removed : Bool
  deriving DecidableEq, Repr

/-- TranslationWebSocketHandler._handle_audio_chunk (lines 184-228).
`session_id` is `connection.get("session_id")` and `audio_b64` the message's
`audio_data` field (both tested for Python truthiness); `b64decode` abstracts
`base64.b64decode`, with `none` for a decode exception.  The `ValueError`
raised by `process_stream_chunk` on an unknown session is caught by the
handler's `except` block (lines 223-228) and reported as an error message.  A
result is sent back only when `result.get("success")` is truthy and
`result.get("buffering")` is not (line 211). -/
def handle_audio_chunk (coordinator : Coordinator) (streams : StreamTable)
    (session_id : Option String) (audio_b64 : Option String)
    (b64decode : String → Option Bytes) : ChunkHandlerOutcome :=
  if ¬ (pyTruthyStr session_id = true) then
    ⟨[.errorMsg "No active stream session"], streams, false, false⟩
  else
    let sid := session_id.getD ""
    if ¬ (pyTruthyStr audio_b64 = true) then
      ⟨[.errorMsg "Missing audio_data"], streams, false, false⟩
    else
      match b64decode (audio_b64.getD "") with
      | none => ⟨[.errorMsg "Invalid base64 audio data"], streams, false, false⟩
      | some audio_data =>
        match process_stream_chunk coordinator streams sid audio_data with
        | .error e =>
          ⟨[.errorMsg ("Audio processing failed: " ++ e)], streams, false, false⟩
        | .ok (.buffering, streams2, _) => ⟨[], streams2, false, false⟩
        | .ok (.flushed r, streams2, _) =>
          if r.success then
            ⟨[.translationResult sid r.source_text r.translated_text
                (r.synthesized_audio.getD [])], streams2, false, false⟩
          else
            ⟨[], streams2, false, false⟩

/-! ## REST route face-image validation
(`routers/translation.py` lines 158-163) -/

/-- The face-image validation of the `/translate` route handler: with lip sync
requested and a face image uploaded it reads the image, with lip sync requested
and no upload it raises `HTTPException(400, "Face image required for lip
sync")` before the pipeline is invoked, and otherwise the pipeline receives no
face image. -/
def translate_route_face_check (include_lip_sync : Bool) (face_image : Option Bytes) :
    Except String (Option Bytes) :=
  if include_lip_sync && face_image.isSome then .ok face_image
  else if include_lip_sync then .error "Face image required for lip sync"
  else .ok none

/-! ## Presentation Room Broadcaster
(`vs_presenter_handler.py`)

Python sets are modelled as lists up to membership (`sadd` is `set.add`,
`sdiscard` is `set.discard`); every dictionary access that can raise `KeyError`
inside a handler whose `except` block swallows the exception is modelled by a
`match` whose `none` branch returns the state reached so far. -/

/-- `set.add`. -/
def sadd (l : List String) (x : String) : List String :=
  if x ∈ l then l else l ++ [x]

/-- `set.discard`. -/
def sdiscard : List String → String → List String
  | [], _ => []
  | y :: rest, x => if y = x then sdiscard rest x else y :: sdiscard rest x

/-- Entry of `self.presentation_rooms` (lines 69-73); the `config` dictionary
and the timestamps are not modelled. -/
structure RoomInfo where
  is_active : Bool
  deriving DecidableEq, Repr

/-- The room-related metadata `_handle_join_presentation` stores on a
connection (lines 87-93); `participant_name`, `selected_language` and
`joined_at` are not read by any mutation modelled here. -/
structure ConnMeta where
  room_code : Option String
  is_presenter : Bool
  deriving DecidableEq, Repr

/-- The room-scoped state of `VSPresenterWebSocketHandler` (lines 21-26)
together with the live-connection registry of the base handler
(`self.active_connections`, reduced to the room metadata). -/
structure PresenterState where
  presentation_rooms : List (String × RoomInfo)
  room_participants : List (String × List String)
  participant_languages : List (String × String)
  muted_participants : List (String × List String)
  raised_hands : List (String × List String)
  presenter_connections : List (String × String)
  connections : List (String × ConnMeta)
  deriving DecidableEq, Repr

/-- The state of a freshly constructed handler: every registry empty. -/
def PresenterState.init : PresenterState := ⟨[], [], [], [], [], [], []⟩

/-- VSPresenterWebSocketHandler._handle_join_presentation (lines 52-123).
Empty `room_code` or `participant_name` are Python-falsy and rejected with an
error reply (lines 60-65).  A missing `room_participants` entry for an existing
room would raise `KeyError` at line 79, caught at line 118 before any mutation.
Events are only delivered for connections registered by the transport layer
(`handle_connection` registers the socket before reading messages), so the
embedding is guarded on registration. -/
def handle_join_presentation (s : PresenterState)
    (conn room_code participant_name selected_language : String)
    (is_presenter : Bool) : PresenterState :=
  match alookup s.connections conn with
  | none => s
  | some _ =>
    if room_code = "" ∨ participant_name = "" then s
    else
      let s1 : PresenterState :=
        if (alookup s.presentation_rooms room_code).isSome then s
        else
          { s with
            presentation_rooms := ainsert s.presentation_rooms room_code ⟨true⟩
            room_participants := ainsert s.room_participants room_code []
            muted_participants := ainsert s.muted_participants room_code []
            raised_hands := ainsert s.raised_hands room_code [] }
      match alookup s1.room_participants room_code with
      | none => s
      | some parts =>
        let s2 : PresenterState :=
          { s1 with
            room_participants := ainsert s1.room_participants room_code (sadd parts conn)
            participant_languages := ainsert s1.participant_languages conn selected_language }
        let s3 : PresenterState :=
          if is_presenter then
            { s2 with presenter_connections := ainsert s2.presenter_connections room_code conn }
          else s2
        { s3 with connections := ainsert s3.connections conn ⟨some room_code, is_presenter⟩ }

/-- VSPresenterWebSocketHandler._handle_participant_mute (lines 204-241).
The sender must carry the `is_presenter` flag; the target id is added to the
room's muted set with no check that it is a participant.  A `KeyError` on a
missing muted set (room already torn down) is swallowed by the `except`
(lines 240-241). -/
def handle_participant_mute (s : PresenterState) (conn participant_id : String) :
    PresenterState :=
  match alookup s.connections conn with
  | none => s
  | some meta =>
    if ¬ meta.is_presenter then s
    else
      match meta.room_code with
      | none => s
      | some room_code =>
        if participant_id = "" then s
        else
          match alookup s.muted_participants room_code with
          | none => s
          | some l =>
            { s with muted_participants :=
                ainsert s.muted_participants room_code (sadd l participant_id) }

/-- VSPresenterWebSocketHandler._handle_participant_unmute (lines 243-280). -/
def handle_participant_unmute (s : PresenterState) (conn participant_id : String) :
    PresenterState :=
  match alookup s.connections conn with
  | none => s
  | some meta =>
    if ¬ meta.is_presenter then s
    else
      match meta.room_code with
      | none => s
      | some room_code =>
        if participant_id = "" then s
        else
          match alookup s.muted_participants room_code with
          | none => s
          | some l =>
            { s with muted_participants :=
                ainsert s.muted_participants room_code (sdiscard l participant_id) }

/-- VSPresenterWebSocketHandler._handle_raise_hand (lines 282-308): toggles the
caller's membership in the room's raised-hand set according to the `raised`
flag; no presenter check. -/
def handle_raise_hand (s : PresenterState) (conn : String) (raised : Bool) :
    PresenterState :=
  match alookup s.connections conn with
  | none => s
  | some meta =>
    match meta.room_code with
    | none => s
    | some room_code =>
      match alookup s.raised_hands room_code with
      | none => s
      | some l =>
        let l2 := if raised then sadd l conn else sdiscard l conn
        { s with raised_hands := ainsert s.raised_hands room_code l2 }

/-- VSPresenterWebSocketHandler._handle_allow_speak (lines 310-340): a
presenter-only unmute plus hand-lowering for the target.  A `KeyError` on the
muted set aborts before the raised-hand discard. -/
def handle_allow_speak (s : PresenterState) (conn participant_id : String) :
    PresenterState :=
  match alookup s.connections conn with
  | none => s
  | some meta =>
    if ¬ meta.is_presenter then s
    else
      match meta.room_code with
      | none => s
      | some room_code =>
        if participant_id = "" then s
        else
          match alookup s.muted_participants room_code with
          | none => s
          | some lm =>
            let s1 : PresenterState :=
              { s with muted_participants :=
                  ainsert s.muted_participants room_code (sdiscard lm participant_id) }
            match alookup s1.raised_hands room_code with
            | none => s1
            | some lr =>
              { s1 with raised_hands :=
                  ainsert s1.raised_hands room_code (sdiscard lr participant_id) }

/-- VSPresenterWebSocketHandler._handle_update_language (lines 342-361): a
Python-truthy `language` is written to `self.participant_languages` for the
caller unconditionally (in particular whether or not the caller has joined any
room). -/
def handle_update_language (s : PresenterState) (conn language : String) :
    PresenterState :=
  match alookup s.connections conn with
  | none => s
  | some _ =>
    if language = "" then s
    else { s with participant_languages := ainsert s.participant_languages conn language }

/-- VSPresenterWebSocketHandler._cleanup_room (lines 423-434): deletes the room
code from all five room-scoped dictionaries (each `del` is guarded by an `in`
test, so a missing key is a no-op).  `participant_languages` is left untouched. -/
def cleanup_room (s : PresenterState) (room_code : String) : PresenterState :=
  { s with
    presentation_rooms := aerase s.presentation_rooms room_code
    room_participants := aerase s.room_participants room_code
    muted_participants := aerase s.muted_participants room_code
    raised_hands := aerase s.raised_hands room_code
    presenter_connections := aerase s.presenter_connections room_code }

/-- VSPresenterWebSocketHandler._handle_end_presentation (lines 363-391):
presenter-only; marks the room inactive (observable only through the broadcast,
since `_cleanup_room` then deletes the entry) and tears the room down. -/
def handle_end_presentation (s : PresenterState) (conn : String) : PresenterState :=
  match alookup s.connections conn with
  | none => s
  | some meta =>
    if ¬ meta.is_presenter then s
    else
      match meta.room_code with
      | none => s
      | some room_code =>
        if (alookup s.presentation_rooms room_code).isSome then cleanup_room s room_code
        else s

/-- VSPresenterWebSocketHandler.disconnect (lines 436-476): removes the caller
from its room's participant set, deletes its language entry, discards it from
the muted and raised-hand sets, and, when the caller's metadata carries the
presenter flag, tears the whole room down.  Removing the entry from
`connections` models the end of the per-socket message loop: no further events
arrive for a disconnected connection (the base-class cleanup deletes the
connection record). -/
def handle_disconnect (s : PresenterState) (conn : String) : PresenterState :=
  match alookup s.connections conn with
  | none => s
  | some meta =>
    let s5 : PresenterState :=
      match meta.room_code with
      | none => s
      | some room_code =>
        let s1 : PresenterState :=
          match alookup s.room_participants room_code with
          | none => s
          | some l =>
            { s with room_participants :=
                ainsert s.room_participants room_code (sdiscard l conn) }
        let s2 : PresenterState :=
          { s1 with participant_languages := aerase s1.participant_languages conn }
        let s3 : PresenterState :=
          match alookup s2.muted_participants room_code with
          | none => s2
          | some l =>
            { s2 with muted_participants :=
                ainsert s2.muted_participants room_code (sdiscard l conn) }
        let s4 : PresenterState :=
          match alookup s3.raised_hands room_code with
          | none => s3
          | some l =>
            { s3 with raised_hands :=
                ainsert s3.raised_hands room_code (sdiscard l conn) }
        if meta.is_presenter then cleanup_room s4 room_code else s4
    { s5 with connections := aerase s5.connections conn }

/-- The room-scoped events of `handle_message` (lines 28-50) plus transport
accept (`connect`) and teardown (`disconnect`). -/
inductive PEvent where
  | connect (conn : String)
  | join (conn room_code participant_name selected_language : String) (is_presenter : Bool)
  | mute (conn participant_id : String)
  | unmute (conn participant_id : String)
  | raiseHand (conn : String) (raised : Bool)
  | allowSpeak (conn participant_id : String)
  | updateLanguage (conn language : String)
  | endPresentation (conn : String)
  | disconnect (conn : String)
  deriving DecidableEq, Repr

/-- One event of the room state machine.  `connect` is the registration
performed by the base `handle_connection` (`websocket_handler.py` lines 35-42)
before any message of the new socket is dispatched. -/
def pstep (s : PresenterState) : PEvent → PresenterState
  | .connect conn => { s with connections := ainsert s.connections conn ⟨none, false⟩ }
  | .join conn room_code name lang is_presenter =>
      handle_join_presentation s conn room_code name lang is_presenter
  | .mute conn participant_id => handle_participant_mute s conn participant_id
  | .unmute conn participant_id => handle_participant_unmute s conn participant_id
  | .raiseHand conn raised => handle_raise_hand s conn raised
  | .allowSpeak conn participant_id => handle_allow_speak s conn participant_id
  | .updateLanguage conn language => handle_update_language s conn language
  | .endPresentation conn => handle_end_presentation s conn
  | .disconnect conn => handle_disconnect s conn

/-- The state reached by a fresh handler after a sequence of events. -/
def prun (events : List PEvent) : PresenterState :=
  events.foldl pstep PresenterState.init

/-- Every member of every room's muted set is a member of that room's
participant set. -/
def mutedConsistent (s : PresenterState) : Prop :=
  ∀ e ∈ s.muted_participants, ∀ c ∈ e.2, c ∈ (alookup s.room_participants e.1).getD []

/-- Every member of every room's raised-hand set is a member of that room's
participant set. -/
def raisedConsistent (s : PresenterState) : Prop :=
  ∀ e ∈ s.raised_hands, ∀ c ∈ e.2, c ∈ (alookup s.room_participants e.1).getD []

/-- Every room's designated presenter is a member of that room's participant
set. -/
def presenterConsistent (s : PresenterState) : Prop :=
  ∀ e ∈ s.presenter_connections, e.2 ∈ (alookup s.room_participants e.1).getD []

/-- Every key of the (handler-global) language map is a participant of some
room. -/
def languageKeysConsistent (s : PresenterState) : Prop :=
  ∀ e ∈ s.participant_languages, ∃ r ∈ s.room_participants, e.1 ∈ r.2

/-- The room-consistency invariant exactly as the specification states it:
language-map keys, muted members and raised-hand members are participants, and
the presenter, if set, is a participant. -/
def RoomConsistent (s : PresenterState) : Prop :=
  mutedConsistent s ∧ raisedConsistent s ∧ presenterConsistent s ∧ languageKeysConsistent s

/-- All seven registries are well-formed dictionaries (no duplicate keys), as
holds of every Python `dict`. -/
def KeysNodupAll (s : PresenterState) : Prop :=
  KeysNodup s.presentation_rooms ∧ KeysNodup s.room_participants ∧
  KeysNodup s.participant_languages ∧ KeysNodup s.muted_participants ∧
  KeysNodup s.raised_hands ∧ KeysNodup s.presenter_connections ∧
  KeysNodup s.connections

/-- Every room with a participant set is a known room. -/
def partsDomOK (s : PresenterState) : Prop :=
  ∀ e ∈ s.room_participants, (alookup s.presentation_rooms e.1).isSome = true

/-- Every room with a muted set has a participant set. -/
def mutedDomOK (s : PresenterState) : Prop :=
  ∀ e ∈ s.muted_participants, (alookup s.room_participants e.1).isSome = true

/-- Every room with a raised-hand set has a participant set. -/
def raisedDomOK (s : PresenterState) : Prop :=
  ∀ e ∈ s.raised_hands, (alookup s.room_participants e.1).isSome = true

/-- A connection whose metadata names a room with a participant set is a member
of that participant set. -/
def connRoomOK (s : PresenterState) : Prop :=
  ∀ rp ∈ s.room_participants, ∀ ce ∈ s.connections,
    ce.2.room_code = some rp.1 → ce.1 ∈ rp.2

/-- The inductive room invariant: well-formed registries, aligned domains,
connection metadata consistent with membership, and the muted-set,
raised-hand-set and presenter containments. -/
def RoomInv (s : PresenterState) : Prop :=
  KeysNodupAll s ∧ partsDomOK s ∧ mutedDomOK s ∧ raisedDomOK s ∧ connRoomOK s ∧
  mutedConsistent s ∧ raisedConsistent s ∧ presenterConsistent s

/-- Well-formedness of an event against the current state.  These are exactly
the side conditions without which the code breaks the room-consistency
invariant: a mute must target a current participant of the presenter's room
(the handler performs no such check); a join that lazily re-creates a room must
not race with stale metadata of survivors of the torn-down room of the same
code; and a disconnecting connection whose metadata lacks the presenter flag
must not be the tracked presenter of its room (as happens when a presenter
re-joins the same room as a non-presenter). -/
def WFEvent (s : PresenterState) : PEvent → Prop
  | .join _ room_code _ _ _ =>
      (alookup s.presentation_rooms room_code).isSome = true ∨
        ∀ ce ∈ s.connections, ce.2.room_code ≠ some room_code
  | .mute conn participant_id =>
      ∀ ce ∈ s.connections, ce.1 = conn → ∀ rp ∈ s.room_participants,
        ce.2.room_code = some rp.1 → participant_id ∈ rp.2
  | .disconnect conn =>
      ∀ ce ∈ s.connections, ce.1 = conn → ce.2.is_presenter = false →
        ∀ pc ∈ s.presenter_connections, ce.2.room_code = some pc.1 → pc.2 ≠ conn
  | _ => True

/-- States reachable from a fresh handler through well-formed events. -/
inductive WFReachable : PresenterState → Prop where
  | init : WFReachable PresenterState.init
  | step {s : PresenterState} {e : PEvent} (hs : WFReachable s) (he : WFEvent s e) :
      WFReachable (pstep s e)

/-! ## Dictionary and set lemmas -/

theorem alookup_eq_none {α : Type} {t : List (String × α)} {k : String} :
    alookup t k = none ↔ k ∉ t.map Prod.fst := by
  induction t with
  | nil => simp [alookup]
  | cons e rest ih =>
    by_cases h : e.1 = k
    · simp [alookup, h]
    · rw [List.map_cons]
      rw [show alookup (e :: rest) k = alookup rest k from by simp [alookup, h]]
      rw [ih, List.mem_cons]
      constructor
      · intro h1 h2
        rcases h2 with h2 | h2
        · exact h h2.symm
        · exact h1 h2
      · intro h1 h2
        exact h1 (Or.inr h2)

theorem alookup_mem {α : Type} {t : List (String × α)} {k : String} {v : α}
    (h : alookup t k = some v) : (k, v) ∈ t := by
  induction t with
  | nil => simp [alookup] at h
  | cons e rest ih =>
    by_cases he : e.1 = k
    · obtain ⟨a, b⟩ := e
      simp only [alookup, he, if_pos] at h
      simp_all
    · simp only [alookup, he, if_neg, if_false] at h
      exact List.mem_cons_of_mem _ (ih h)

theorem mem_alookup {α : Type} {t : List (String × α)} {e : String × α}
    (hn : KeysNodup t) (he : e ∈ t) : alookup t e.1 = some e.2 := by
  induction t with
  | nil => simp at he
  | cons f rest ih =>
    obtain ⟨hf, hrest⟩ := List.nodup_cons.mp hn
    rcases List.mem_cons.mp he with h | h
    · subst h
      simp [alookup]
    · have hne : f.1 ≠ e.1 := by
        intro hh
        exact hf (hh ▸ List.mem_map_of_mem Prod.fst h)
      simp [alookup, hne, ih hrest h]

theorem alookup_ainsert_self {α : Type} (t : List (String × α)) (k : String) (v : α) :
    alookup (ainsert t k v) k = some v := by
  induction t with
  | nil => simp [ainsert, alookup]
  | cons e rest ih =>
    by_cases h : e.1 = k
    · simp [ainsert, h, alookup]
    · simp [ainsert, h, alookup, ih]

theorem alookup_ainsert_ne {α : Type} {t : List (String × α)} {k k2 : String} {v : α}
    (h : k ≠ k2) : alookup (ainsert t k v) k2 = alookup t k2 := by
  induction t with
  | nil => simp [ainsert, alookup, h]
  | cons e rest ih =>
    by_cases he : e.1 = k
    · simp [ainsert, he, alookup, h, he ▸ h]
    · simp [ainsert, he, alookup, ih]

theorem alookup_ainsert_isSome {α : Type} {t : List (String × α)} {k2 : String}
    (k : String) (v : α) (h : (alookup t k2).isSome = true) :
    (alookup (ainsert t k v) k2).isSome = true := by
  by_cases hk : k = k2
  · subst hk
    simp [alookup_ainsert_self]
  · rwa [alookup_ainsert_ne hk]

theorem mem_ainsert_nodup {α : Type} {t : List (String × α)} {k : String} {v : α}
    {e : String × α} (hn : KeysNodup t) :
    e ∈ ainsert t k v ↔ e = (k, v) ∨ (e ∈ t ∧ e.1 ≠ k) := by
  induction t with
  | nil => simp [ainsert]
  | cons f rest ih =>
    obtain ⟨hf, hrest⟩ := List.nodup_cons.mp hn
    by_cases h : f.1 = k
    · subst h
      constructor
      · intro hm
        rcases List.mem_cons.mp (by simpa [ainsert] using hm) with h1 | h1
        · exact Or.inl h1
        · refine Or.inr ⟨List.mem_cons_of_mem _ h1, ?_⟩
          intro hh
          exact hf (hh ▸ List.mem_map_of_mem Prod.fst h1)
      · intro hm
        rcases hm with h1 | ⟨h1, h2⟩
        · simp [ainsert, h1]
        · rcases List.mem_cons.mp h1 with h3 | h3
          · exact absurd (h3 ▸ rfl) h2
          · simp [ainsert, List.mem_cons_of_mem _ h3]
    · constructor
      · intro hm
        rcases List.mem_cons.mp (by simpa [ainsert, h] using hm) with h1 | h1
        · subst h1
          exact Or.inr ⟨List.mem_cons_self _ _, h⟩
        · rcases (ih hrest).mp h1 with h2 | ⟨h2, h3⟩
          · exact Or.inl h2
          · exact Or.inr ⟨List.mem_cons_of_mem _ h2, h3⟩
      · intro hm
        rcases hm with h1 | ⟨h1, h2⟩
        · have : e ∈ ainsert rest k v := (ih hrest).mpr (Or.inl h1)
          simp [ainsert, h, List.mem_cons_of_mem _ this]
        · rcases List.mem_cons.mp h1 with h3 | h3
          · simp [ainsert, h, h3]
          · have : e ∈ ainsert rest k v := (ih hrest).mpr (Or.inr ⟨h3, h2⟩)
            simp [ainsert, h, List.mem_cons_of_mem _ this]

theorem keys_ainsert {α : Type} {t : List (String × α)} {k x : String} {v : α}
    (h : x ∈ (ainsert t k v).map Prod.fst) : x = k ∨ x ∈ t.map Prod.fst := by
  induction t with
  | nil => simpa [ainsert] using h
  | cons e rest ih =>
    by_cases he : e.1 = k
    · rcases (by simpa [ainsert, he] using h : x = k ∨ x ∈ rest.map Prod.fst) with h1 | h1
      · exact Or.inl h1
      · exact Or.inr (by simp [h1])
    · rcases (by simpa [ainsert, he] using h : x = e.1 ∨ x ∈ (ainsert rest k v).map Prod.fst)
        with h1 | h1
      · exact Or.inr (by simp [h1])
      · rcases ih h1 with h2 | h2
        · exact Or.inl h2
        · exact Or.inr (by simp [h2])

theorem keysNodup_ainsert {α : Type} {t : List (String × α)} (k : String) (v : α)
    (hn : KeysNodup t) : KeysNodup (ainsert t k v) := by
  induction t with
  | nil => simp [ainsert, KeysNodup]
  | cons e rest ih =>
    obtain ⟨hf, hrest⟩ := List.nodup_cons.mp hn
    by_cases h : e.1 = k
    · subst h
      rw [show ainsert (e :: rest) e.1 v = (e.1, v) :: rest from by simp [ainsert]]
      unfold KeysNodup
      rw [List.map_cons]
      exact List.nodup_cons.mpr ⟨hf, hrest⟩
    · rw [show ainsert (e :: rest) k v = e :: ainsert rest k v from by simp [ainsert, h]]
      unfold KeysNodup
      rw [List.map_cons]
      refine List.nodup_cons.mpr ⟨?_, ih hrest⟩
      intro hmem
      rcases keys_ainsert hmem with h1 | h1
      · exact h h1
      · exact hf h1

theorem aerase_sublist {α : Type} (t : List (String × α)) (k : String) :
    List.Sublist (aerase t k) t := by
  induction t with
  | nil => simp [aerase]
  | cons e rest ih =>
    by_cases h : e.1 = k
    · rw [show aerase (e :: rest) k = rest from by simp [aerase, h]]
      exact List.sublist_cons_self e rest
    · rw [show aerase (e :: rest) k = e :: aerase rest k from by simp [aerase, h]]
      exact List.Sublist.cons₂ e ih

theorem mem_aerase {α : Type} {t : List (String × α)} {k : String} {e : String × α}
    (h : e ∈ aerase t k) : e ∈ t :=
  (aerase_sublist t k).mem h

theorem keysNodup_aerase {α : Type} {t : List (String × α)} (k : String)
    (hn : KeysNodup t) : KeysNodup (aerase t k) :=
  List.Nodup.sublist ((aerase_sublist t k).map Prod.fst) hn

theorem mem_aerase_nodup {α : Type} {t : List (String × α)} {k : String}
    {e : String × α} (hn : KeysNodup t) : e ∈ aerase t k ↔ e ∈ t ∧ e.1 ≠ k := by
  induction t with
  | nil => simp [aerase]
  | cons f rest ih =>
    obtain ⟨hf, hrest⟩ := List.nodup_cons.mp hn
    by_cases h : f.1 = k
    · subst h
      simp only [aerase, if_pos rfl]
      constructor
      · intro hm
        refine ⟨List.mem_cons_of_mem _ hm, ?_⟩
        intro hh
        exact hf (hh ▸ List.mem_map_of_mem Prod.fst hm)
      · rintro ⟨h1, h2⟩
        rcases List.mem_cons.mp h1 with h3 | h3
        · exact absurd (h3 ▸ rfl) h2
        · exact h3
    · simp only [aerase, if_neg h]
      constructor
      · intro hm
        rcases List.mem_cons.mp hm with h1 | h1
        · exact ⟨h1 ▸ List.mem_cons_self _ _, h1 ▸ h⟩
        · obtain ⟨h2, h3⟩ := (ih hrest).mp h1
          exact ⟨List.mem_cons_of_mem _ h2, h3⟩
      · rintro ⟨h1, h2⟩
        rcases List.mem_cons.mp h1 with h3 | h3
        · exact h3 ▸ List.mem_cons_self _ _
        · exact List.mem_cons_of_mem _ ((ih hrest).mpr ⟨h3, h2⟩)

theorem alookup_aerase_self {α : Type} {t : List (String × α)} {k : String}
    (hn : KeysNodup t) : alookup (aerase t k) k = none := by
  rw [alookup_eq_none]
  intro hmem
  obtain ⟨e, he, hek⟩ := List.mem_map.mp hmem
  obtain ⟨-, hne⟩ := (mem_aerase_nodup hn).mp he
  exact hne hek

theorem alookup_aerase_ne {α : Type} {t : List (String × α)} {k k2 : String}
    (h : k ≠ k2) : alookup (aerase t k) k2 = alookup t k2 := by
  induction t with
  | nil => simp [aerase]
  | cons e rest ih =>
    by_cases he : e.1 = k
    · have hne : ¬ e.1 = k2 := fun hh => h (he.symm.trans hh)
      rw [show aerase (e :: rest) k = rest from by simp [aerase, he]]
      rw [show alookup (e :: rest) k2 = alookup rest k2 from by simp [alookup, hne]]
    · rw [show aerase (e :: rest) k = e :: aerase rest k from by simp [aerase, he]]
      by_cases he2 : e.1 = k2
      · simp [alookup, he2]
      · simp [alookup, he2, ih]

theorem aerase_length {α : Type} {t : List (String × α)} {k : String}
    (h : (alookup t k).isSome = true) : (aerase t k).length + 1 = t.length := by
  induction t with
  | nil => simp [alookup] at h
  | cons e rest ih =>
    by_cases he : e.1 = k
    · simp [aerase, he]
    · simp only [alookup, if_neg he] at h
      simp [aerase, he, ih h]

theorem mem_sadd {l : List String} {x y : String} :
    x ∈ sadd l y ↔ x ∈ l ∨ x = y := by
  unfold sadd
  by_cases h : y ∈ l
  · simp only [if_pos h]
    constructor
    · exact Or.inl
    · rintro (h1 | rfl)
      · exact h1
      · exact h
  · simp [if_neg h]

theorem keysNodup_nil {α : Type} : KeysNodup ([] : List (String × α)) := by
  simp [KeysNodup]

theorem mem_sdiscard {l : List String} {x y : String} :
    x ∈ sdiscard l y ↔ x ∈ l ∧ x ≠ y := by
  induction l with
  | nil => simp [sdiscard]
  | cons z rest ih =>
    by_cases hy : z = y
    · rw [show sdiscard (z :: rest) y = sdiscard rest y from by simp [sdiscard, hy]]
      rw [ih]
      constructor
      · rintro ⟨h1, h2⟩
        exact ⟨List.mem_cons_of_mem _ h1, h2⟩
      · rintro ⟨h1, h2⟩
        rcases List.mem_cons.mp h1 with h3 | h3
        · exact absurd (h3.trans hy) h2
        · exact ⟨h3, h2⟩
    · rw [show sdiscard (z :: rest) y = z :: sdiscard rest y from by simp [sdiscard, hy]]
      rw [List.mem_cons, ih, List.mem_cons]
      constructor
      · rintro (h1 | ⟨h1, h2⟩)
        · exact ⟨Or.inl h1, fun hh => hy (h1.symm.trans hh)⟩
        · exact ⟨Or.inr h1, h2⟩
      · rintro ⟨h1 | h1, h2⟩
        · exact Or.inl h1
        · exact Or.inr ⟨h1, h2⟩

/-! ## Claim theorems: the Stream Session Manager -/

/-- C1: on a known session, a `pushChunk` whose appended chunk leaves fewer
than 5 chunks buffered appends the chunk, increments the chunk counter and
returns the buffering acknowledgement with no coordinator invocation; the push
that makes the buffer reach 5 chunks returns the coordinator's result for the
in-order concatenation of the buffered chunks and clears the buffer; a
`pushChunk` on an unknown session id fails with the invalid-session error. -/
theorem pushChunk_buffer_spec (coordinator : Coordinator) (streams : StreamTable)
    (session_id : String) (audio_chunk : Bytes) :
    (∀ session, alookup streams session_id = some session →
      (session.buffer.length + 1 < 5 →
        process_stream_chunk coordinator streams session_id audio_chunk =
          .ok (.buffering,
            ainsert streams session_id
              { session with
                chunk_count := session.chunk_count + 1
                buffer := session.buffer ++ [audio_chunk] }, [])) ∧
      (session.buffer.length + 1 = 5 →
        process_stream_chunk coordinator streams session_id audio_chunk =
          .ok (.flushed (coordinator (session.buffer ++ [audio_chunk]).flatten
                  session.target_language session.voice_profile session.source_language),
            ainsert streams session_id
              { session with
                chunk_count := session.chunk_count + 1
                buffer := [] },
            [(session.buffer ++ [audio_chunk]).flatten]))) ∧
    (alookup streams session_id = none →
      process_stream_chunk coordinator streams session_id audio_chunk =
        .error ("Invalid session ID: " ++ session_id)) := by
  constructor
  · intro session hs
    constructor
    · intro hlt
      have hcond : ¬ 5 ≤ (session.buffer ++ [audio_chunk]).length := by
        simp only [List.length_append, List.length_cons, List.length_nil]
        omega
      simp only [process_stream_chunk, hs]
      rw [if_neg hcond]
    · intro heq
      have hcond : 5 ≤ (session.buffer ++ [audio_chunk]).length := by
        simp only [List.length_append, List.length_cons, List.length_nil]
        omega
      simp only [process_stream_chunk, hs]
      rw [if_pos hcond]
  · intro hn
    simp [process_stream_chunk, hn]

/-- Witness for C1 at a concrete session: four buffered chunks flush on the
next push, an empty buffer keeps buffering, and an absent id errors. -/
theorem pushChunk_buffer_spec_witness :
    process_stream_chunk (fun _ _ _ _ => create_error_result "x" 0 1)
        [("s", ⟨"u", ⟨none⟩, "es", none, 0, []⟩)] "s" [1] =
      .ok (.buffering, [("s", ⟨"u", ⟨none⟩, "es", none, 1, [[1]]⟩)], []) ∧
    process_stream_chunk (fun _ _ _ _ => create_error_result "x" 0 1)
        [("s", ⟨"u", ⟨none⟩, "es", none, 4, [[1], [2], [3], [4]]⟩)] "s" [5] =
      .ok (.flushed (create_error_result "x" 0 1),
        [("s", ⟨"u", ⟨none⟩, "es", none, 5, []⟩)], [[1, 2, 3, 4, 5]]) ∧
    process_stream_chunk (fun _ _ _ _ => create_error_result "x" 0 1)
        [("s", ⟨"u", ⟨none⟩, "es", none, 0, []⟩)] "t" [1] =
      .error "Invalid session ID: t" := by
  refine ⟨?_, ?_, ?_⟩
  · exact ((pushChunk_buffer_spec (fun _ _ _ _ => create_error_result "x" 0 1)
      [("s", (⟨"u", ⟨none⟩, "es", none, 0, []⟩ : StreamSession))] "s" [1]).1
      ⟨"u", ⟨none⟩, "es", none, 0, []⟩ (by decide)).1 (by decide)
  · exact ((pushChunk_buffer_spec (fun _ _ _ _ => create_error_result "x" 0 1)
      [("s", (⟨"u", ⟨none⟩, "es", none, 4, [[1], [2], [3], [4]]⟩ : StreamSession))] "s" [5]).1
      ⟨"u", ⟨none⟩, "es", none, 4, [[1], [2], [3], [4]]⟩ (by decide)).2 (by decide)
  · exact (pushChunk_buffer_spec (fun _ _ _ _ => create_error_result "x" 0 1)
      [("s", (⟨"u", ⟨none⟩, "es", none, 0, []⟩ : StreamSession))] "t" [1]).2 (by decide)

/-- C2: closing a known session with a non-empty buffer performs exactly one
final flush over the concatenated remaining bytes and returns that result with
the chunk counter; closing with an empty buffer returns no final result; in
both cases the session is removed, so a second close (and any close on an
unknown id) fails with the invalid-session error. -/
theorem close_session_spec (coordinator : Coordinator) (streams : StreamTable)
    (session_id : String) :
    (∀ session, KeysNodup streams → alookup streams session_id = some session →
      (session.buffer ≠ [] →
        close_stream_session coordinator streams session_id =
          .ok (⟨session.chunk_count,
                some (coordinator session.buffer.flatten session.target_language
                  session.voice_profile session.source_language)⟩,
               aerase streams session_id, [session.buffer.flatten])) ∧
      (session.buffer = [] →
        close_stream_session coordinator streams session_id =
          .ok (⟨session.chunk_count, none⟩, aerase streams session_id, [])) ∧
      alookup (aerase streams session_id) session_id = none ∧
      close_stream_session coordinator (aerase streams session_id) session_id =
        .error ("Invalid session ID: " ++ session_id)) ∧
    (alookup streams session_id = none →
      close_stream_session coordinator streams session_id =
        .error ("Invalid session ID: " ++ session_id)) := by
  constructor
  · intro session hn hs
    have herased : alookup (aerase streams session_id) session_id = none :=
      alookup_aerase_self hn
    refine ⟨?_, ?_, herased, ?_⟩
    · intro hb
      have hbe : session.buffer.isEmpty = false := by
        cases hbuf : session.buffer with
        | nil => exact absurd hbuf hb
        | cons x xs => simp
      simp [close_stream_session, close_stream_session_popped, hs, hbe]
    · intro hb
      simp [close_stream_session, close_stream_session_popped, hs, hb]
    · simp [close_stream_session, close_stream_session_popped, herased]
  · intro hn
    simp [close_stream_session, close_stream_session_popped, hn]

/-- Witness for C2: closing a one-chunk session flushes once and removes it,
closing an empty-buffer session yields no final result, and the second close
errors. -/
theorem close_session_spec_witness :
    close_stream_session (fun _ _ _ _ => create_error_result "x" 0 1)
        [("s", ⟨"u", ⟨none⟩, "es", none, 1, [[7]]⟩)] "s" =
      .ok (⟨1, some (create_error_result "x" 0 1)⟩, [], [[7]]) ∧
    close_stream_session (fun _ _ _ _ => create_error_result "x" 0 1)
        [("s", ⟨"u", ⟨none⟩, "es", none, 0, []⟩)] "s" =
      .ok (⟨0, none⟩, [], []) ∧
    close_stream_session (fun _ _ _ _ => create_error_result "x" 0 1) [] "s" =
      .error "Invalid session ID: s" := by
  refine ⟨?_, ?_, ?_⟩
  · exact ((close_session_spec (fun _ _ _ _ => create_error_result "x" 0 1)
      [("s", (⟨"u", ⟨none⟩, "es", none, 1, [[7]]⟩ : StreamSession))] "s").1
      ⟨"u", ⟨none⟩, "es", none, 1, [[7]]⟩ (by simp [KeysNodup]) (by decide)).1 (by decide)
  · exact ((close_session_spec (fun _ _ _ _ => create_error_result "x" 0 1)
      [("s", (⟨"u", ⟨none⟩, "es", none, 0, []⟩ : StreamSession))] "s").1
      ⟨"u", ⟨none⟩, "es", none, 0, []⟩ (by simp [KeysNodup]) (by decide)).2.1 (by decide)
  · exact (close_session_spec (fun _ _ _ _ => create_error_result "x" 0 1) [] "s").2 (by decide)

/-- C3: on an initialized pipeline, `open` with the table already at the
configured ceiling fails with the capacity error and leaves the table and the
active-stream count unchanged; below the ceiling it stores a fresh session and
returns its id. -/
theorem open_capacity_spec (is_initialized : Bool) (max_concurrent_streams : Nat)
    (streams : StreamTable) (active_streams_metric : Nat) (user_id : String)
    (voice_profile_data : VoiceProfile) (target_language : String)
    (source_language : Option String) (now : Nat)
    (hinit : is_initialized = true) :
    (streams.length = max_concurrent_streams →
      create_stream_session is_initialized max_concurrent_streams streams
          active_streams_metric user_id voice_profile_data target_language
          source_language now =
        (.error "Maximum concurrent streams reached", streams, active_streams_metric)) ∧
    (streams.length < max_concurrent_streams →
      create_stream_session is_initialized max_concurrent_streams streams
          active_streams_metric user_id voice_profile_data target_language
          source_language now =
        (.ok ("stream_" ++ user_id ++ "_" ++ toString now),
         ainsert streams ("stream_" ++ user_id ++ "_" ++ toString now)
           ⟨user_id, voice_profile_data, target_language, source_language, 0, []⟩,
         (ainsert streams ("stream_" ++ user_id ++ "_" ++ toString now)
           ⟨user_id, voice_profile_data, target_language, source_language, 0, []⟩).length)) := by
  subst hinit
  constructor
  · intro hfull
    have hcond : max_concurrent_streams ≤ streams.length := le_of_eq hfull.symm
    simp [create_stream_session, hcond]
  · intro hlt
    have hcond : ¬ max_concurrent_streams ≤ streams.length := by omega
    simp [create_stream_session, hcond]

/-- Witness for C3: with a ceiling of 1 and one open session, `open` fails with
the capacity error and the state is unchanged; on an empty table it succeeds. -/
theorem open_capacity_spec_witness :
    create_stream_session true 1 [("s", ⟨"u", ⟨none⟩, "es", none, 0, []⟩)] 1
        "v" ⟨none⟩ "fr" none 3 =
      (.error "Maximum concurrent streams reached",
       [("s", ⟨"u", ⟨none⟩, "es", none, 0, []⟩)], 1) ∧
    create_stream_session true 1 [] 0 "v" ⟨none⟩ "fr" none 3 =
      (.ok "stream_v_3", [("stream_v_3", ⟨"v", ⟨none⟩, "fr", none, 0, []⟩)], 1) := by
  constructor
  · exact ((open_capacity_spec true 1 [("s", ⟨"u", ⟨none⟩, "es", none, 0, []⟩)] 1
      "v" ⟨none⟩ "fr" none 3 rfl).1 (by decide))
  · exact ((open_capacity_spec true 1 [] 0 "v" ⟨none⟩ "fr" none 3 rfl).2 (by decide))

/-- C10: `close` pops the session and shrinks the table before the final flush
is processed: the flush of `close_stream_session` is computed against the
popped table (`close_stream_session_popped`), in which a `pushChunk` on the
same id fails with the invalid-session error and the table is one below its
previous size (so a table that was at the ceiling is strictly below it during
the flush). -/
theorem close_pops_before_flush (coordinator : Coordinator) (streams : StreamTable)
    (session_id : String) (session : StreamSession) (chunk : Bytes)
    (hn : KeysNodup streams) (hs : alookup streams session_id = some session)
    (hb : session.buffer ≠ []) :
    close_stream_session_popped streams session_id =
      some (session, aerase streams session_id) ∧
    alookup (aerase streams session_id) session_id = none ∧
    process_stream_chunk coordinator (aerase streams session_id) session_id chunk =
      .error ("Invalid session ID: " ++ session_id) ∧
    (aerase streams session_id).length + 1 = streams.length ∧
    close_stream_session coordinator streams session_id =
      .ok (⟨session.chunk_count,
            some (coordinator session.buffer.flatten session.target_language
              session.voice_profile session.source_language)⟩,
           aerase streams session_id, [session.buffer.flatten]) := by
  have herased : alookup (aerase streams session_id) session_id = none :=
    alookup_aerase_self hn
  have hbe : session.buffer.isEmpty = false := by
    cases hbuf : session.buffer with
    | nil => exact absurd hbuf hb
    | cons x xs => simp
  refine ⟨?_, herased, ?_, ?_, ?_⟩
  · simp [close_stream_session_popped, hs]
  · simp [process_stream_chunk, herased]
  · exact aerase_length (by simp [hs])
  · simp [close_stream_session, close_stream_session_popped, hs, hbe]

/-- Witness for C10 at a one-session table at ceiling 1: during the close the
popped table is empty, a push on the closing id errors, and the close result
carries the flush of the remaining byte. -/
theorem close_pops_before_flush_witness :
    close_stream_session_popped [("s", ⟨"u", ⟨none⟩, "es", none, 1, [[7]]⟩)] "s" =
      some (⟨"u", ⟨none⟩, "es", none, 1, [[7]]⟩, []) ∧
    alookup ([] : StreamTable) "s" = none ∧
    process_stream_chunk (fun _ _ _ _ => create_error_result "x" 0 1) [] "s" [9] =
      .error "Invalid session ID: s" ∧
    ([] : StreamTable).length + 1 =
      ([("s", ⟨"u", ⟨none⟩, "es", none, 1, [[7]]⟩)] : StreamTable).length ∧
    close_stream_session (fun _ _ _ _ => create_error_result "x" 0 1)
        [("s", ⟨"u", ⟨none⟩, "es", none, 1, [[7]]⟩)] "s" =
      .ok (⟨1, some (create_error_result "x" 0 1)⟩, [], [[7]]) := by
  exact close_pops_before_flush (fun _ _ _ _ => create_error_result "x" 0 1)
    [("s", (⟨"u", ⟨none⟩, "es", none, 1, [[7]]⟩ : StreamSession))] "s"
    ⟨"u", ⟨none⟩, "es", none, 1, [[7]]⟩ [9] (by simp [KeysNodup]) (by decide) (by decide)

/-! ## Claim theorems: the Pipeline Coordinator -/

/-- C4: when the speech stage of an initialized coordinator returns text that
is empty after trimming whitespace, the invocation short-circuits with the
"No speech detected in audio" failure result carrying the elapsed time so far,
its success flag is false, and neither the translation stage nor the synthesis
stage is invoked. -/
theorem empty_speech_short_circuit (metrics : PerfMetrics) (clock : Nat → ℚ)
    (ad : Adapters) (audio_data : Bytes) (target_language : String)
    (voice_profile_data : VoiceProfile) (source_language : Option String)
    (include_lip_sync : Bool) (face_image : Option Bytes)
    (tr : TranscriptionResult) (htr : ad.transcribe_audio = .ok tr)
    (hempty : py_strip_empty tr.text = true) :
    process_speech_to_speech true metrics clock ad audio_data target_language
        voice_profile_data source_language include_lip_sync face_image =
      .ok ⟨create_error_result "No speech detected in audio" (clock 0) (clock 3),
           { metrics with total_requests := metrics.total_requests + 1 },
           [Stage.stt]⟩ ∧
    (create_error_result "No speech detected in audio" (clock 0) (clock 3)).success
      = false ∧
    (create_error_result "No speech detected in audio" (clock 0)
        (clock 3)).performance_metrics.total_time_ms = (clock 3 - clock 0) * 1000 ∧
    Stage.textTranslate ∉ [Stage.stt] ∧ Stage.tts ∉ [Stage.stt] := by
  refine ⟨?_, rfl, rfl, by decide, by decide⟩
  simp [process_speech_to_speech, htr, hempty]

/-- Witness for C4: a transcription of whitespace-only text short-circuits. -/
theorem empty_speech_short_circuit_witness :
    process_speech_to_speech true ⟨0, 0, 0, 0⟩ (fun _ => (0 : ℚ))
        ⟨.ok ⟨" ", "en", 1⟩, .ok ⟨"", 1⟩, .ok "", .ok [], .ok []⟩ [1] "es" ⟨none⟩
        none false none =
      .ok ⟨create_error_result "No speech detected in audio" 0 0, ⟨1, 0, 0, 0⟩,
           [Stage.stt]⟩ := by
  exact (empty_speech_short_circuit ⟨0, 0, 0, 0⟩ (fun _ => (0 : ℚ))
    ⟨.ok ⟨" ", "en", 1⟩, .ok ⟨"", 1⟩, .ok "", .ok [], .ok []⟩ [1] "es" ⟨none⟩
    none false none ⟨" ", "en", 1⟩ rfl (by decide)).1

/-- C5: an adapter exception raised in the speech, translation or synthesis
stage is caught and converted into a returned failure result carrying the error
description and the elapsed time; the total-request counter is incremented and
the successful-request counter (and the latency average) are untouched. -/
theorem adapter_failure_spec (metrics : PerfMetrics) (clock : Nat → ℚ)
    (ad : Adapters) (audio_data : Bytes) (target_language : String)
    (voice_profile_data : VoiceProfile) (source_language : Option String)
    (include_lip_sync : Bool) (face_image : Option Bytes) :
    (∀ e, ad.transcribe_audio = .error e →
      process_speech_to_speech true metrics clock ad audio_data target_language
          voice_profile_data source_language include_lip_sync face_image =
        .ok ⟨create_error_result e (clock 0) (clock 2),
             { metrics with total_requests := metrics.total_requests + 1 },
             [Stage.stt]⟩) ∧
    (∀ e tr, ad.transcribe_audio = .ok tr → py_strip_empty tr.text = false →
        ad.translate_text = .error e →
      process_speech_to_speech true metrics clock ad audio_data target_language
          voice_profile_data source_language include_lip_sync face_image =
        .ok ⟨create_error_result e (clock 0) (clock 4),
             { metrics with total_requests := metrics.total_requests + 1 },
             [Stage.stt, Stage.textTranslate]⟩) ∧
    (∀ e tr tro opt, ad.transcribe_audio = .ok tr → py_strip_empty tr.text = false →
        ad.translate_text = .ok tro → ad.optimize_for_speech = .ok opt →
        ad.clone_voice = .error e →
      process_speech_to_speech true metrics clock ad audio_data target_language
          voice_profile_data source_language include_lip_sync face_image =
        .ok ⟨create_error_result e (clock 0) (clock 6),
             { metrics with total_requests := metrics.total_requests + 1 },
             [Stage.stt, Stage.textTranslate, Stage.optimize, Stage.tts]⟩) ∧
    (∀ e s now, (create_error_result e s now).success = false ∧
      (create_error_result e s now).error = some e ∧
      (create_error_result e s now).performance_metrics.total_time_ms =
        (now - s) * 1000) ∧
    ({ metrics with total_requests := metrics.total_requests + 1 }).successful_requests
      = metrics.successful_requests ∧
    ({ metrics with total_requests := metrics.total_requests + 1 }).average_latency_ms
      = metrics.average_latency_ms := by
  refine ⟨?_, ?_, ?_, fun e s now => ⟨rfl, rfl, rfl⟩, rfl, rfl⟩
  · intro e htr
    simp [process_speech_to_speech, htr]
  · intro e tr htr hne htro
    simp [process_speech_to_speech, htr, hne, htro]
  · intro e tr tro opt htr hne htro hopt hclone
    simp [process_speech_to_speech, htr, hne, htro, hopt, hclone]

/-- Witness for C5: a synthesis-stage exception is converted into a failure
result while the counters record one more total request and no new success. -/
theorem adapter_failure_spec_witness :
    process_speech_to_speech true ⟨3, 2, 5, 0⟩ (fun _ => (0 : ℚ))
        ⟨.ok ⟨"hi", "en", 1⟩, .ok ⟨"hola", 1⟩, .ok "hola.", .error "gpu down", .ok []⟩
        [1] "es" ⟨none⟩ none false none =
      .ok ⟨create_error_result "gpu down" 0 0, ⟨4, 2, 5, 0⟩,
           [Stage.stt, Stage.textTranslate, Stage.optimize, Stage.tts]⟩ := by
  exact ((adapter_failure_spec ⟨3, 2, 5, 0⟩ (fun _ => (0 : ℚ))
    ⟨.ok ⟨"hi", "en", 1⟩, .ok ⟨"hola", 1⟩, .ok "hola.", .error "gpu down", .ok []⟩
    [1] "es" ⟨none⟩ none false none).2.2.1 "gpu down" ⟨"hi", "en", 1⟩ ⟨"hola", 1⟩
    "hola." rfl (by decide) rfl rfl rfl)

/-- C9: after an invocation that returns a result, the rolling average equals
the invocation's latency exactly when it is the first successful one, equals
0.1 times the latest latency plus 0.9 times the previous average on every later
successful one, and is untouched when the invocation failed. -/
theorem average_latency_update_spec (is_initialized : Bool) (metrics : PerfMetrics)
    (clock : Nat → ℚ) (ad : Adapters) (audio_data : Bytes) (target_language : String)
    (voice_profile_data : VoiceProfile) (source_language : Option String)
    (include_lip_sync : Bool) (face_image : Option Bytes) (out : ProcOutcome)
    (h : process_speech_to_speech is_initialized metrics clock ad audio_data
      target_language voice_profile_data source_language include_lip_sync face_image
      = .ok out) :
    (out.result.success = true →
      (metrics.successful_requests = 0 →
        out.metrics.average_latency_ms = out.result.performance_metrics.total_time_ms) ∧
      (metrics.successful_requests ≠ 0 →
        out.metrics.average_latency_ms =
          (1/10) * out.result.performance_metrics.total_time_ms +
            (9/10) * metrics.average_latency_ms)) ∧
    (out.result.success = false →
      out.metrics.average_latency_ms = metrics.average_latency_ms) := by
  cases hb : is_initialized with
  | false =>
    rw [hb] at h
    simp [process_speech_to_speech] at h
  | true =>
    rw [hb] at h
    rcases htr : ad.transcribe_audio with e | tr
    · simp [process_speech_to_speech, htr] at h
      subst h
      exact ⟨fun hs => by simp [create_error_result] at hs, fun _ => rfl⟩
    · cases hne : py_strip_empty tr.text with
      | true =>
        simp [process_speech_to_speech, htr, hne] at h
        subst h
        exact ⟨fun hs => by simp [create_error_result] at hs, fun _ => rfl⟩
      | false =>
        rcases htro : ad.translate_text with e | tro
        · simp [process_speech_to_speech, htr, hne, htro] at h
          subst h
          exact ⟨fun hs => by simp [create_error_result] at hs, fun _ => rfl⟩
        · rcases hopt : ad.optimize_for_speech with e | opt
          · simp [process_speech_to_speech, htr, hne, htro, hopt] at h
            subst h
            exact ⟨fun hs => by simp [create_error_result] at hs, fun _ => rfl⟩
          · rcases hclone : ad.clone_voice with e | audio_out
            · simp [process_speech_to_speech, htr, hne, htro, hopt, hclone] at h
              subst h
              exact ⟨fun hs => by simp [create_error_result] at hs, fun _ => rfl⟩
            · cases hlip : include_lip_sync && pyTruthyBytes face_image with
              | false =>
                simp [process_speech_to_speech, htr, hne, htro, hopt, hclone, hlip] at h
                subst h
                refine ⟨fun _ => ⟨fun h0 => ?_, fun h0 => ?_⟩, fun hs => by simp at hs⟩
                · simp [update_average_latency, h0]
                · have hne1 : ¬ metrics.successful_requests + 1 = 1 := by omega
                  simp [update_average_latency, hne1]
                  norm_num
              | true =>
                rcases hgen : ad.generate_lip_sync with e | video
                · simp [process_speech_to_speech, htr, hne, htro, hopt, hclone, hlip,
                    hgen] at h
                  subst h
                  exact ⟨fun hs => by simp [create_error_result] at hs, fun _ => rfl⟩
                · simp [process_speech_to_speech, htr, hne, htro, hopt, hclone, hlip,
                    hgen] at h
                  subst h
                  refine ⟨fun _ => ⟨fun h0 => ?_, fun h0 => ?_⟩, fun hs => by simp at hs⟩
                  · simp [update_average_latency, h0]
                  · have hne1 : ¬ metrics.successful_requests + 1 = 1 := by omega
                    simp [update_average_latency, hne1]
                    norm_num

/-- Witness for C9: a failed invocation (speech stage raising) leaves the
rolling average untouched. -/
theorem average_latency_update_spec_witness :
    ((process_speech_to_speech true ⟨7, 4, 250, 0⟩ (fun _ => (0 : ℚ))
        ⟨.error "mic err", .ok ⟨"x", 1⟩, .ok "x", .ok [], .ok []⟩
        [1] "es" ⟨none⟩ none false none).map
      (fun out => (out.result.success, out.metrics.average_latency_ms))) =
      .ok (false, 250) := by
  have hproc : process_speech_to_speech true ⟨7, 4, 250, 0⟩ (fun _ => (0 : ℚ))
      ⟨.error "mic err", .ok ⟨"x", 1⟩, .ok "x", .ok [], .ok []⟩
      [1] "es" ⟨none⟩ none false none =
      .ok ⟨create_error_result "mic err" 0 0, ⟨8, 4, 250, 0⟩, [Stage.stt]⟩ := rfl
  have h := (average_latency_update_spec true ⟨7, 4, 250, 0⟩ (fun _ => (0 : ℚ))
    ⟨.error "mic err", .ok ⟨"x", 1⟩, .ok "x", .ok [], .ok []⟩
    [1] "es" ⟨none⟩ none false none _ hproc).2 rfl
  rw [hproc]
  exact congrArg Except.ok (congrArg (Prod.mk false) h)

/-! ## Claim theorems: the Connection Gateway -/

/-- C6 counterexample: a fifth chunk whose flush produces a failure result (the
coordinator returns an unsuccessful PipelineResult) is not reported to the
client at all: the handler sends no message whatsoever, rather than an
unsuccessful translation-result message. -/
theorem gateway_failure_result_dropped :
    process_stream_chunk (fun _ _ _ _ => create_error_result "upstream failure" 0 1)
        [("s", ⟨"u", ⟨none⟩, "es", none, 4, [[1], [2], [3], [4]]⟩)] "s" [5] =
      .ok (.flushed (create_error_result "upstream failure" 0 1),
        [("s", ⟨"u", ⟨none⟩, "es", none, 5, []⟩)], [[1, 2, 3, 4, 5]]) ∧
    (create_error_result "upstream failure" 0 1).success = false ∧
    handle_audio_chunk (fun _ _ _ _ => create_error_result "upstream failure" 0 1)
        [("s", ⟨"u", ⟨none⟩, "es", none, 4, [[1], [2], [3], [4]]⟩)] (some "s")
        (some "AA==") (fun _ => some [5]) =
      ⟨[], [("s", ⟨"u", ⟨none⟩, "es", none, 5, []⟩)], false, false⟩ :=
  ⟨rfl, rfl, rfl⟩

/-- C6 amended: when the flush triggered by an audio_chunk message produces a
failure PipelineResult, the handler neither clears the session nor removes the
connection, but it also sends nothing on the connection: the failure is
silently dropped (a translation_result message is only emitted when the result
is successful). -/
theorem audio_chunk_failure_spec (coordinator : Coordinator) (streams : StreamTable)
    (session_id audio_b64 : Option String) (b64decode : String → Option Bytes)
    (audio_data : Bytes) (r : PipelineResult) (streams2 : StreamTable)
    (log : List Bytes)
    (hsid : pyTruthyStr session_id = true)
    (haud : pyTruthyStr audio_b64 = true)
    (hdec : b64decode (audio_b64.getD "") = some audio_data)
    (hproc : process_stream_chunk coordinator streams (session_id.getD "") audio_data =
      .ok (.flushed r, streams2, log))
    (hfail : r.success = false) :
    handle_audio_chunk coordinator streams session_id audio_b64 b64decode =
      ⟨[], streams2, false, false⟩ := by
  simp [handle_audio_chunk, hsid, haud, hdec, hproc, hfail]

/-- Witness for the amended C6 at a concrete failing flush. -/
theorem audio_chunk_failure_spec_witness :
    handle_audio_chunk (fun _ _ _ _ => create_error_result "bad audio" 0 1)
        [("t", ⟨"u", ⟨none⟩, "fr", none, 4, [[1], [2], [3], [4]]⟩)] (some "t")
        (some "AQ==") (fun _ => some [6]) =
      ⟨[], [("t", ⟨"u", ⟨none⟩, "fr", none, 5, []⟩)], false, false⟩ := by
  exact audio_chunk_failure_spec (fun _ _ _ _ => create_error_result "bad audio" 0 1)
    [("t", ⟨"u", ⟨none⟩, "fr", none, 4, [[1], [2], [3], [4]]⟩)] (some "t")
    (some "AQ==") (fun _ => some [6]) [6] (create_error_result "bad audio" 0 1)
    [("t", ⟨"u", ⟨none⟩, "fr", none, 5, []⟩)] [[1, 2, 3, 4, 6]] rfl rfl rfl rfl rfl

/-! ## Claim theorems: lip sync without a face image -/

/-- C7 counterexample: a process invocation with lip sync requested and no face
image does not fail with a malformed-input error before invoking adapters: it
invokes the speech, translation and synthesis adapters and returns a success
result, merely skipping the lip-sync stage. -/
theorem lip_sync_without_face_not_rejected :
    ((process_speech_to_speech true ⟨0, 0, 0, 0⟩ (fun _ => (0 : ℚ))
        ⟨.ok ⟨"hi", "en", 1⟩, .ok ⟨"hola", 1⟩, .ok "hola.", .ok [2], .ok [9]⟩
        [1] "es" ⟨none⟩ none true none).map
      (fun out => (out.result.success, out.result.error, out.result.lip_sync_video,
        out.invoked))) =
      .ok (true, none, none,
        [Stage.stt, Stage.textTranslate, Stage.optimize, Stage.tts]) := rfl

/-- C7 amended: the lip-sync stage is never attempted by the coordinator when
no face image is supplied (the synthesis proceeds and the result carries no
lip-sync video and no error for it); the malformed-input rejection lives in the
REST route handler, which raises the 400 "Face image required for lip sync"
before the pipeline is invoked, while a supplied face image is passed through. -/
theorem lip_sync_without_face_spec (metrics : PerfMetrics) (clock : Nat → ℚ)
    (ad : Adapters) (audio_data : Bytes) (target_language : String)
    (voice_profile_data : VoiceProfile) (source_language : Option String) :
    (∀ out, process_speech_to_speech true metrics clock ad audio_data
        target_language voice_profile_data source_language true none = .ok out →
      Stage.lipSync ∉ out.invoked ∧ out.result.lip_sync_video = none) ∧
    translate_route_face_check true none = .error "Face image required for lip sync" ∧
    (∀ face_image, translate_route_face_check true (some face_image) =
      .ok (some face_image)) := by
  refine ⟨?_, by simp [translate_route_face_check],
    fun face_image => by simp [translate_route_face_check]⟩
  intro out h
  rcases htr : ad.transcribe_audio with e | tr
  · simp [process_speech_to_speech, htr] at h
    subst h
    exact ⟨by simp, rfl⟩
  · cases hne : py_strip_empty tr.text with
    | true =>
      simp [process_speech_to_speech, htr, hne] at h
      subst h
      exact ⟨by simp, rfl⟩
    | false =>
      rcases htro : ad.translate_text with e | tro
      · simp [process_speech_to_speech, htr, hne, htro] at h
        subst h
        exact ⟨by simp, rfl⟩
      · rcases hopt : ad.optimize_for_speech with e | opt
        · simp [process_speech_to_speech, htr, hne, htro, hopt] at h
          subst h
          exact ⟨by simp, rfl⟩
        · rcases hclone : ad.clone_voice with e | audio_out
          · simp [process_speech_to_speech, htr, hne, htro, hopt, hclone] at h
            subst h
            exact ⟨by simp, rfl⟩
          · simp [process_speech_to_speech, htr, hne, htro, hopt, hclone,
              pyTruthyBytes] at h
            subst h
            exact ⟨by simp, rfl⟩

/-- Witness for the amended C7: the concrete invocation of the counterexample
carries no lip-sync video, and the route check rejects. -/
theorem lip_sync_without_face_spec_witness :
    ((process_speech_to_speech true ⟨0, 0, 0, 0⟩ (fun _ => (0 : ℚ))
        ⟨.ok ⟨"hi", "en", 1⟩, .ok ⟨"hola", 1⟩, .ok "hola.", .ok [2], .ok [9]⟩
        [1] "es" ⟨none⟩ none true none).map
      (fun out => out.result.lip_sync_video)) = .ok none ∧
    translate_route_face_check true none =
      .error "Face image required for lip sync" := by
  constructor
  · obtain ⟨out, hout⟩ : ∃ out, process_speech_to_speech true ⟨0, 0, 0, 0⟩
        (fun _ => (0 : ℚ))
        ⟨.ok ⟨"hi", "en", 1⟩, .ok ⟨"hola", 1⟩, .ok "hola.", .ok [2], .ok [9]⟩
        [1] "es" ⟨none⟩ none true none = .ok out := ⟨_, rfl⟩
    have h := ((lip_sync_without_face_spec ⟨0, 0, 0, 0⟩ (fun _ => (0 : ℚ))
      ⟨.ok ⟨"hi", "en", 1⟩, .ok ⟨"hola", 1⟩, .ok "hola.", .ok [2], .ok [9]⟩
      [1] "es" ⟨none⟩ none).1 out hout).2
    rw [hout]
    exact congrArg Except.ok h
  · exact (lip_sync_without_face_spec ⟨0, 0, 0, 0⟩ (fun _ => (0 : ℚ))
      ⟨.ok ⟨"hi", "en", 1⟩, .ok ⟨"hola", 1⟩, .ok "hola.", .ok [2], .ok [9]⟩
      [1] "es" ⟨none⟩ none).2.1

/-! ## Room invariant preservation lemmas -/

theorem aerase_ainsert_self {α : Type} {t : List (String × α)} {k : String} {v : α}
    (hn : KeysNodup t) : aerase (ainsert t k v) k = aerase t k := by
  induction t with
  | nil => simp [ainsert, aerase]
  | cons e rest ih =>
    obtain ⟨-, hrest⟩ := List.nodup_cons.mp hn
    by_cases h : e.1 = k
    · rw [show ainsert (e :: rest) k v = (k, v) :: rest from by simp [ainsert, h]]
      rw [show aerase ((k, v) :: rest) k = rest from by simp [aerase]]
      rw [show aerase (e :: rest) k = rest from by simp [aerase, h]]
    · rw [show ainsert (e :: rest) k v = e :: ainsert rest k v from by simp [ainsert, h]]
      rw [show aerase (e :: ainsert rest k v) k = e :: aerase (ainsert rest k v) k
        from by simp [aerase, h]]
      rw [show aerase (e :: rest) k = e :: aerase rest k from by simp [aerase, h]]
      rw [ih hrest]

theorem ainsert_ainsert_self {α : Type} (t : List (String × α)) (k : String)
    (v w : α) : ainsert (ainsert t k v) k w = ainsert t k w := by
  induction t with
  | nil => simp [ainsert]
  | cons e rest ih =>
    by_cases h : e.1 = k
    · simp [ainsert, h]
    · simp [ainsert, h, ih]

theorem roomInv_init : RoomInv PresenterState.init := by
  refine ⟨⟨?_, ?_, ?_, ?_, ?_, ?_, ?_⟩, ?_, ?_, ?_, ?_, ?_, ?_, ?_⟩ <;>
    simp [KeysNodup, partsDomOK, mutedDomOK, raisedDomOK, connRoomOK,
      mutedConsistent, raisedConsistent, presenterConsistent, PresenterState.init]

theorem roomInv_connect (s : PresenterState) (conn : String) (hs : RoomInv s) :
    RoomInv { s with connections := ainsert s.connections conn ⟨none, false⟩ } := by
  obtain ⟨⟨hn1, hn2, hn3, hn4, hn5, hn6, hn7⟩, hpd, hmd, hrd, hcr, hmc, hrcc, hpc⟩ := hs
  refine ⟨⟨hn1, hn2, hn3, hn4, hn5, hn6, keysNodup_ainsert _ _ hn7⟩,
    hpd, hmd, hrd, ?_, hmc, hrcc, hpc⟩
  intro rp hrp ce hce hmeta
  rcases (mem_ainsert_nodup hn7).mp hce with rfl | ⟨hce2, -⟩
  · simp at hmeta
  · exact hcr rp hrp ce hce2 hmeta

theorem roomInv_updateLanguage (s : PresenterState) (conn language : String)
    (hs : RoomInv s) : RoomInv (handle_update_language s conn language) := by
  unfold handle_update_language
  cases hc : alookup s.connections conn with
  | none => exact hs
  | some meta =>
    by_cases hl : language = ""
    · rw [if_pos hl]
      exact hs
    · rw [if_neg hl]
      obtain ⟨⟨hn1, hn2, hn3, hn4, hn5, hn6, hn7⟩, hpd, hmd, hrd, hcr, hmc, hrcc, hpc⟩ := hs
      exact ⟨⟨hn1, hn2, keysNodup_ainsert _ _ hn3, hn4, hn5, hn6, hn7⟩,
        hpd, hmd, hrd, hcr, hmc, hrcc, hpc⟩

theorem roomInv_unmute (s : PresenterState) (conn participant_id : String)
    (hs : RoomInv s) : RoomInv (handle_participant_unmute s conn participant_id) := by
  unfold handle_participant_unmute
  split
  · exact hs
  next meta hc =>
    split
    · exact hs
    split
    · exact hs
    next room_code hm =>
      split
      · exact hs
      split
      · exact hs
      next l hml =>
        obtain ⟨⟨hn1, hn2, hn3, hn4, hn5, hn6, hn7⟩, hpd, hmd, hrd, hcr, hmc,
          hrcc, hpc⟩ := hs
        have hmem : (room_code, l) ∈ s.muted_participants := alookup_mem hml
        refine ⟨⟨hn1, hn2, hn3, keysNodup_ainsert _ _ hn4, hn5, hn6, hn7⟩,
          hpd, ?_, hrd, hcr, ?_, hrcc, hpc⟩
        · intro e he
          rcases (mem_ainsert_nodup hn4).mp he with rfl | ⟨he2, -⟩
          · exact hmd (room_code, l) hmem
          · exact hmd e he2
        · intro e he c hc2
          rcases (mem_ainsert_nodup hn4).mp he with rfl | ⟨he2, -⟩
          · exact hmc (room_code, l) hmem c (mem_sdiscard.mp hc2).1
          · exact hmc e he2 c hc2

theorem roomInv_raiseHand (s : PresenterState) (conn : String) (raised : Bool)
    (hs : RoomInv s) : RoomInv (handle_raise_hand s conn raised) := by
  unfold handle_raise_hand
  split
  · exact hs
  next meta hc =>
    split
    · exact hs
    next room_code hm =>
      split
      · exact hs
      next l hrl =>
        obtain ⟨⟨hn1, hn2, hn3, hn4, hn5, hn6, hn7⟩, hpd, hmd, hrd, hcr, hmc,
          hrcc, hpc⟩ := hs
        have hmem : (room_code, l) ∈ s.raised_hands := alookup_mem hrl
        have hsome : (alookup s.room_participants room_code).isSome = true :=
          hrd _ hmem
        obtain ⟨pl, hpl⟩ := Option.isSome_iff_exists.mp hsome
        have hconn : conn ∈ pl := by
          have h2 := hcr (room_code, pl) (alookup_mem hpl) (conn, meta)
            (alookup_mem hc)
          simp only [hm] at h2
          exact h2 trivial
        refine ⟨⟨hn1, hn2, hn3, hn4, keysNodup_ainsert _ _ hn5, hn6, hn7⟩,
          hpd, hmd, ?_, hcr, hmc, ?_, hpc⟩
        · intro e he
          rcases (mem_ainsert_nodup hn5).mp he with rfl | ⟨he2, -⟩
          · exact hrd (room_code, l) hmem
          · exact hrd e he2
        · intro e he c hc2
          rcases (mem_ainsert_nodup hn5).mp he with rfl | ⟨he2, -⟩
          · cases raised with
            | true =>
              rcases mem_sadd.mp (by simpa using hc2) with h1 | rfl
              · exact hrcc (room_code, l) hmem c h1
              · rw [hpl]
                simpa using hconn
            | false =>
              exact hrcc (room_code, l) hmem c (mem_sdiscard.mp (by simpa using hc2)).1
          · exact hrcc e he2 c hc2

theorem roomInv_cleanup (s : PresenterState) (room_code : String) (hs : RoomInv s) :
    RoomInv (cleanup_room s room_code) := by
  obtain ⟨⟨hn1, hn2, hn3, hn4, hn5, hn6, hn7⟩, hpd, hmd, hrd, hcr, hmc, hrcc, hpc⟩ := hs
  unfold cleanup_room
  refine ⟨⟨keysNodup_aerase _ hn1, keysNodup_aerase _ hn2, hn3, keysNodup_aerase _ hn4,
    keysNodup_aerase _ hn5, keysNodup_aerase _ hn6, hn7⟩, ?_, ?_, ?_, ?_, ?_, ?_, ?_⟩
  · intro e he
    obtain ⟨he2, hne⟩ := (mem_aerase_nodup hn2).mp he
    rw [alookup_aerase_ne (fun hh => hne hh.symm)]
    exact hpd e he2
  · intro e he
    obtain ⟨he2, hne⟩ := (mem_aerase_nodup hn4).mp he
    rw [alookup_aerase_ne (fun hh => hne hh.symm)]
    exact hmd e he2
  · intro e he
    obtain ⟨he2, hne⟩ := (mem_aerase_nodup hn5).mp he
    rw [alookup_aerase_ne (fun hh => hne hh.symm)]
    exact hrd e he2
  · intro rp hrp ce hce hmeta
    exact hcr rp ((mem_aerase_nodup hn2).mp hrp).1 ce hce hmeta
  · intro e he c hc
    obtain ⟨he2, hne⟩ := (mem_aerase_nodup hn4).mp he
    rw [alookup_aerase_ne (fun hh => hne hh.symm)]
    exact hmc e he2 c hc
  · intro e he c hc
    obtain ⟨he2, hne⟩ := (mem_aerase_nodup hn5).mp he
    rw [alookup_aerase_ne (fun hh => hne hh.symm)]
    exact hrcc e he2 c hc
  · intro e he
    obtain ⟨he2, hne⟩ := (mem_aerase_nodup hn6).mp he
    rw [alookup_aerase_ne (fun hh => hne hh.symm)]
    exact hpc e he2

theorem roomInv_eraseConn (s : PresenterState) (conn : String) (hs : RoomInv s) :
    RoomInv { s with connections := aerase s.connections conn } := by
  obtain ⟨⟨hn1, hn2, hn3, hn4, hn5, hn6, hn7⟩, hpd, hmd, hrd, hcr, hmc, hrcc, hpc⟩ := hs
  refine ⟨⟨hn1, hn2, hn3, hn4, hn5, hn6, keysNodup_aerase _ hn7⟩,
    hpd, hmd, hrd, ?_, hmc, hrcc, hpc⟩
  intro rp hrp ce hce hmeta
  exact hcr rp hrp ce ((mem_aerase_nodup hn7).mp hce).1 hmeta

theorem roomInv_mute (s : PresenterState) (conn participant_id : String)
    (hs : RoomInv s)
    (hwf : ∀ ce ∈ s.connections, ce.1 = conn → ∀ rp ∈ s.room_participants,
      ce.2.room_code = some rp.1 → participant_id ∈ rp.2) :
    RoomInv (handle_participant_mute s conn participant_id) := by
  unfold handle_participant_mute
  split
  · exact hs
  next meta hc =>
    split
    · exact hs
    split
    · exact hs
    next room_code hm =>
      split
      · exact hs
      split
      · exact hs
      next l hml =>
        obtain ⟨⟨hn1, hn2, hn3, hn4, hn5, hn6, hn7⟩, hpd, hmd, hrd, hcr, hmc,
          hrcc, hpc⟩ := hs
        have hmem : (room_code, l) ∈ s.muted_participants := alookup_mem hml
        have hsome : (alookup s.room_participants room_code).isSome = true :=
          hmd _ hmem
        obtain ⟨pl, hpl⟩ := Option.isSome_iff_exists.mp hsome
        have hpid : participant_id ∈ pl := by
          have h2 := hwf (conn, meta) (alookup_mem hc) rfl (room_code, pl)
            (alookup_mem hpl)
          simp only [hm] at h2
          exact h2 trivial
        refine ⟨⟨hn1, hn2, hn3, keysNodup_ainsert _ _ hn4, hn5, hn6, hn7⟩,
          hpd, ?_, hrd, hcr, ?_, hrcc, hpc⟩
        · intro e he2
          rcases (mem_ainsert_nodup hn4).mp he2 with rfl | ⟨he3, -⟩
          · exact hmd (room_code, l) hmem
          · exact hmd e he3
        · intro e he2 c hc2
          rcases (mem_ainsert_nodup hn4).mp he2 with rfl | ⟨he3, -⟩
          · rcases mem_sadd.mp (by simpa using hc2) with h1 | rfl
            · exact hmc (room_code, l) hmem c h1
            · rw [hpl]
              simpa using hpid
          · exact hmc e he3 c hc2

theorem roomInv_allowSpeak (s : PresenterState) (conn participant_id : String)
    (hs : RoomInv s) : RoomInv (handle_allow_speak s conn participant_id) := by
  unfold handle_allow_speak
  split
  · exact hs
  next meta hc =>
    split
    · exact hs
    split
    · exact hs
    next room_code hm =>
      split
      · exact hs
      split
      · exact hs
      next lm hml =>
        obtain ⟨⟨hn1, hn2, hn3, hn4, hn5, hn6, hn7⟩, hpd, hmd, hrd, hcr, hmc,
          hrcc, hpc⟩ := hs
        have hmmem : (room_code, lm) ∈ s.muted_participants := alookup_mem hml
        dsimp only
        split
        · refine ⟨⟨hn1, hn2, hn3, keysNodup_ainsert _ _ hn4, hn5, hn6, hn7⟩,
            hpd, ?_, hrd, hcr, ?_, hrcc, hpc⟩
          · intro e he2
            rcases (mem_ainsert_nodup hn4).mp he2 with rfl | ⟨he3, -⟩
            · exact hmd (room_code, lm) hmmem
            · exact hmd e he3
          · intro e he2 c hc2
            rcases (mem_ainsert_nodup hn4).mp he2 with rfl | ⟨he3, -⟩
            · exact hmc (room_code, lm) hmmem c (mem_sdiscard.mp (by simpa using hc2)).1
            · exact hmc e he3 c hc2
        next lr hrl =>
          have hrmem : (room_code, lr) ∈ s.raised_hands := alookup_mem hrl
          refine ⟨⟨hn1, hn2, hn3, keysNodup_ainsert _ _ hn4,
            keysNodup_ainsert _ _ hn5, hn6, hn7⟩, hpd, ?_, ?_, hcr, ?_, ?_, hpc⟩
          · intro e he2
            rcases (mem_ainsert_nodup hn4).mp he2 with rfl | ⟨he3, -⟩
            · exact hmd (room_code, lm) hmmem
            · exact hmd e he3
          · intro e he2
            rcases (mem_ainsert_nodup hn5).mp he2 with rfl | ⟨he3, -⟩
            · exact hrd (room_code, lr) hrmem
            · exact hrd e he3
          · intro e he2 c hc2
            rcases (mem_ainsert_nodup hn4).mp he2 with rfl | ⟨he3, -⟩
            · exact hmc (room_code, lm) hmmem c (mem_sdiscard.mp (by simpa using hc2)).1
            · exact hmc e he3 c hc2
          · intro e he2 c hc2
            rcases (mem_ainsert_nodup hn5).mp he2 with rfl | ⟨he3, -⟩
            · exact hrcc (room_code, lr) hrmem c (mem_sdiscard.mp (by simpa using hc2)).1
            · exact hrcc e he3 c hc2

theorem roomInv_join (s : PresenterState)
    (conn room_code participant_name selected_language : String)
    (is_presenter : Bool) (hs : RoomInv s)
    (hwf : (alookup s.presentation_rooms room_code).isSome = true ∨
      ∀ ce ∈ s.connections, ce.2.room_code ≠ some room_code) :
    RoomInv (handle_join_presentation s conn room_code participant_name
      selected_language is_presenter) := by
  obtain ⟨⟨hn1, hn2, hn3, hn4, hn5, hn6, hn7⟩, hpd, hmd, hrd, hcr, hmc, hrcc, hpc⟩ := hs
  have hs0 : RoomInv s :=
    ⟨⟨hn1, hn2, hn3, hn4, hn5, hn6, hn7⟩, hpd, hmd, hrd, hcr, hmc, hrcc, hpc⟩
  unfold handle_join_presentation
  split
  · exact hs0
  next meta0 hc =>
    split
    · exact hs0
    next hguard =>
      by_cases hroom : (alookup s.presentation_rooms room_code).isSome = true
      · rw [if_pos hroom]
        dsimp only
        split
        · exact hs0
        next parts hparts =>
          have hplmem : (room_code, parts) ∈ s.room_participants :=
            alookup_mem hparts
          have hrcne : ∀ x : String, ¬ x = room_code → ¬ room_code = x :=
            fun x hx hh => hx hh.symm
          cases is_presenter with
          | true =>
            simp only [eq_self_iff_true, if_true]
            refine ⟨⟨hn1, keysNodup_ainsert _ _ hn2, keysNodup_ainsert _ _ hn3,
              hn4, hn5, keysNodup_ainsert _ _ hn6, keysNodup_ainsert _ _ hn7⟩,
              ?_, ?_, ?_, ?_, ?_, ?_, ?_⟩
            · intro e he
              rcases (mem_ainsert_nodup hn2).mp he with rfl | ⟨he3, -⟩
              · exact hroom
              · exact hpd e he3
            · intro e he
              exact alookup_ainsert_isSome _ _ (hmd e he)
            · intro e he
              exact alookup_ainsert_isSome _ _ (hrd e he)
            · intro rp hrp ce hce hmeta
              rcases (mem_ainsert_nodup hn2).mp hrp with rfl | ⟨hrp2, hrpne⟩
              · rcases (mem_ainsert_nodup hn7).mp hce with rfl | ⟨hce2, -⟩
                · exact mem_sadd.mpr (Or.inr rfl)
                · exact mem_sadd.mpr (Or.inl (hcr (room_code, parts) hplmem ce hce2 hmeta))
              · rcases (mem_ainsert_nodup hn7).mp hce with rfl | ⟨hce2, -⟩
                · exact absurd (Option.some.inj hmeta).symm hrpne
                · exact hcr rp hrp2 ce hce2 hmeta
            · intro e he c hc2
              by_cases hke : e.1 = room_code
              · have h3 := hmc e he c hc2
                rw [hke, hparts] at h3
                rw [hke, alookup_ainsert_self]
                exact mem_sadd.mpr (Or.inl (by simpa using h3))
              · rw [alookup_ainsert_ne (hrcne _ hke)]
                exact hmc e he c hc2
            · intro e he c hc2
              by_cases hke : e.1 = room_code
              · have h3 := hrcc e he c hc2
                rw [hke, hparts] at h3
                rw [hke, alookup_ainsert_self]
                exact mem_sadd.mpr (Or.inl (by simpa using h3))
              · rw [alookup_ainsert_ne (hrcne _ hke)]
                exact hrcc e he c hc2
            · intro e he
              rcases (mem_ainsert_nodup hn6).mp he with rfl | ⟨he3, hne⟩
              · rw [alookup_ainsert_self]
                exact mem_sadd.mpr (Or.inr rfl)
              · rw [alookup_ainsert_ne (hrcne _ hne)]
                exact hpc e he3
          | false =>
            simp only [Bool.false_eq_true, if_false]
            refine ⟨⟨hn1, keysNodup_ainsert _ _ hn2, keysNodup_ainsert _ _ hn3,
              hn4, hn5, hn6, keysNodup_ainsert _ _ hn7⟩,
              ?_, ?_, ?_, ?_, ?_, ?_, ?_⟩
            · intro e he
              rcases (mem_ainsert_nodup hn2).mp he with rfl | ⟨he3, -⟩
              · exact hroom
              · exact hpd e he3
            · intro e he
              exact alookup_ainsert_isSome _ _ (hmd e he)
            · intro e he
              exact alookup_ainsert_isSome _ _ (hrd e he)
            · intro rp hrp ce hce hmeta
              rcases (mem_ainsert_nodup hn2).mp hrp with rfl | ⟨hrp2, hrpne⟩
              · rcases (mem_ainsert_nodup hn7).mp hce with rfl | ⟨hce2, -⟩
                · exact mem_sadd.mpr (Or.inr rfl)
                · exact mem_sadd.mpr (Or.inl (hcr (room_code, parts) hplmem ce hce2 hmeta))
              · rcases (mem_ainsert_nodup hn7).mp hce with rfl | ⟨hce2, -⟩
                · exact absurd (Option.some.inj hmeta).symm hrpne
                · exact hcr rp hrp2 ce hce2 hmeta
            · intro e he c hc2
              by_cases hke : e.1 = room_code
              · have h3 := hmc e he c hc2
                rw [hke, hparts] at h3
                rw [hke, alookup_ainsert_self]
                exact mem_sadd.mpr (Or.inl (by simpa using h3))
              · rw [alookup_ainsert_ne (hrcne _ hke)]
                exact hmc e he c hc2
            · intro e he c hc2
              by_cases hke : e.1 = room_code
              · have h3 := hrcc e he c hc2
                rw [hke, hparts] at h3
                rw [hke, alookup_ainsert_self]
                exact mem_sadd.mpr (Or.inl (by simpa using h3))
              · rw [alookup_ainsert_ne (hrcne _ hke)]
                exact hrcc e he c hc2
            · intro e he
              by_cases hke : e.1 = room_code
              · have h3 := hpc e he
                rw [hke, hparts] at h3
                rw [hke, alookup_ainsert_self]
                exact mem_sadd.mpr (Or.inl (by simpa using h3))
              · rw [alookup_ainsert_ne (hrcne _ hke)]
                exact hpc e he
      · rw [if_neg hroom]
        have hnoref : ∀ ce ∈ s.connections, ce.2.room_code ≠ some room_code :=
          hwf.resolve_left hroom
        have hpnone : alookup s.room_participants room_code = none := by
          cases hx : alookup s.room_participants room_code with
          | none => rfl
          | some pl => exact absurd (hpd _ (alookup_mem hx)) hroom
        have hrcne : ∀ x : String, ¬ x = room_code → ¬ room_code = x :=
          fun x hx hh => hx hh.symm
        dsimp only
        split
        next hnone =>
          rw [alookup_ainsert_self] at hnone
          exact absurd hnone (by simp)
        next parts hparts =>
          rw [alookup_ainsert_self] at hparts
          obtain rfl : parts = [] := (Option.some.inj hparts).symm
          rw [ainsert_ainsert_self]
          have hn2b : KeysNodup (ainsert s.room_participants room_code
            (sadd [] conn)) := keysNodup_ainsert _ _ hn2
          cases is_presenter with
          | true =>
            simp only [eq_self_iff_true, if_true]
            refine ⟨⟨keysNodup_ainsert _ _ hn1, hn2b, keysNodup_ainsert _ _ hn3,
              keysNodup_ainsert _ _ hn4, keysNodup_ainsert _ _ hn5,
              keysNodup_ainsert _ _ hn6, keysNodup_ainsert _ _ hn7⟩,
              ?_, ?_, ?_, ?_, ?_, ?_, ?_⟩
            · intro e he
              rcases (mem_ainsert_nodup hn2).mp he with rfl | ⟨he3, hne⟩
              · rw [alookup_ainsert_self]
                rfl
              · rw [alookup_ainsert_ne (hrcne _ hne)]
                exact hpd e he3
            · intro e he
              rcases (mem_ainsert_nodup hn4).mp he with rfl | ⟨he3, hne⟩
              · rw [alookup_ainsert_self]
                rfl
              · rw [alookup_ainsert_ne (hrcne _ hne)]
                exact hmd e he3
            · intro e he
              rcases (mem_ainsert_nodup hn5).mp he with rfl | ⟨he3, hne⟩
              · rw [alookup_ainsert_self]
                rfl
              · rw [alookup_ainsert_ne (hrcne _ hne)]
                exact hrd e he3
            · intro rp hrp ce hce hmeta
              rcases (mem_ainsert_nodup hn2).mp hrp with rfl | ⟨hrp2, hrpne⟩
              · rcases (mem_ainsert_nodup hn7).mp hce with rfl | ⟨hce2, -⟩
                · show conn ∈ sadd [] conn
                  exact mem_sadd.mpr (Or.inr rfl)
                · exact absurd hmeta (hnoref ce hce2)
              · rcases (mem_ainsert_nodup hn7).mp hce with rfl | ⟨hce2, -⟩
                · exact absurd (Option.some.inj hmeta).symm hrpne
                · exact hcr rp hrp2 ce hce2 hmeta
            · intro e he c hc2
              rcases (mem_ainsert_nodup hn4).mp he with rfl | ⟨he3, hne⟩
              · simp at hc2
              · rw [alookup_ainsert_ne (hrcne _ hne)]
                exact hmc e he3 c hc2
            · intro e he c hc2
              rcases (mem_ainsert_nodup hn5).mp he with rfl | ⟨he3, hne⟩
              · simp at hc2
              · rw [alookup_ainsert_ne (hrcne _ hne)]
                exact hrcc e he3 c hc2
            · intro e he
              rcases (mem_ainsert_nodup hn6).mp he with rfl | ⟨he3, hne⟩
              · rw [alookup_ainsert_self]
                exact mem_sadd.mpr (Or.inr rfl)
              · rw [alookup_ainsert_ne (hrcne _ hne)]
                exact hpc e he3
          | false =>
            simp only [Bool.false_eq_true, if_false]
            refine ⟨⟨keysNodup_ainsert _ _ hn1, hn2b, keysNodup_ainsert _ _ hn3,
              keysNodup_ainsert _ _ hn4, keysNodup_ainsert _ _ hn5, hn6,
              keysNodup_ainsert _ _ hn7⟩,
              ?_, ?_, ?_, ?_, ?_, ?_, ?_⟩
            · intro e he
              rcases (mem_ainsert_nodup hn2).mp he with rfl | ⟨he3, hne⟩
              · rw [alookup_ainsert_self]
                rfl
              · rw [alookup_ainsert_ne (hrcne _ hne)]
                exact hpd e he3
            · intro e he
              rcases (mem_ainsert_nodup hn4).mp he with rfl | ⟨he3, hne⟩
              · rw [alookup_ainsert_self]
                rfl
              · rw [alookup_ainsert_ne (hrcne _ hne)]
                exact hmd e he3
            · intro e he
              rcases (mem_ainsert_nodup hn5).mp he with rfl | ⟨he3, hne⟩
              · rw [alookup_ainsert_self]
                rfl
              · rw [alookup_ainsert_ne (hrcne _ hne)]
                exact hrd e he3
            · intro rp hrp ce hce hmeta
              rcases (mem_ainsert_nodup hn2).mp hrp with rfl | ⟨hrp2, hrpne⟩
              · rcases (mem_ainsert_nodup hn7).mp hce with rfl | ⟨hce2, -⟩
                · show conn ∈ sadd [] conn
                  exact mem_sadd.mpr (Or.inr rfl)
                · exact absurd hmeta (hnoref ce hce2)
              · rcases (mem_ainsert_nodup hn7).mp hce with rfl | ⟨hce2, -⟩
                · exact absurd (Option.some.inj hmeta).symm hrpne
                · exact hcr rp hrp2 ce hce2 hmeta
            · intro e he c hc2
              rcases (mem_ainsert_nodup hn4).mp he with rfl | ⟨he3, hne⟩
              · simp at hc2
              · rw [alookup_ainsert_ne (hrcne _ hne)]
                exact hmc e he3 c hc2
            · intro e he c hc2
              rcases (mem_ainsert_nodup hn5).mp he with rfl | ⟨he3, hne⟩
              · simp at hc2
              · rw [alookup_ainsert_ne (hrcne _ hne)]
                exact hrcc e he3 c hc2
            · intro e he
              by_cases hke : e.1 = room_code
              · have h3 := hpc e he
                rw [hke, hpnone] at h3
                simp at h3
              · rw [alookup_ainsert_ne (hrcne _ hke)]
                exact hpc e he

theorem roomInv_eraseLang (s : PresenterState) (conn : String) (hs : RoomInv s) :
    RoomInv { s with participant_languages := aerase s.participant_languages conn } := by
  obtain ⟨⟨hn1, hn2, hn3, hn4, hn5, hn6, hn7⟩, hpd, hmd, hrd, hcr, hmc, hrcc, hpc⟩ := hs
  exact ⟨⟨hn1, hn2, keysNodup_aerase _ hn3, hn4, hn5, hn6, hn7⟩,
    hpd, hmd, hrd, hcr, hmc, hrcc, hpc⟩

theorem roomInv_discard_general (s : PresenterState) (conn rc : String)
    (P M R : List (String × List String))
    (hs : RoomInv s)
    (hPn : KeysNodup P) (hMn : KeysNodup M) (hRn : KeysNodup R)
    (hPne : ∀ k, ¬ k = rc → alookup P k = alookup s.room_participants k)
    (hPrc : ∀ c, c ∈ (alookup P rc).getD [] ↔
      c ∈ (alookup s.room_participants rc).getD [] ∧ c ≠ conn)
    (hPsome : ∀ k, (alookup P k).isSome = (alookup s.room_participants k).isSome)
    (hPmem : ∀ e ∈ P, e ∈ s.room_participants ∨
      ∃ pl, alookup s.room_participants rc = some pl ∧ e = (rc, sdiscard pl conn))
    (hMmem : ∀ e ∈ M, (¬ e.1 = rc ∧ e ∈ s.muted_participants) ∨
      (e.1 = rc ∧ (alookup s.muted_participants rc).isSome = true ∧
        ∀ c ∈ e.2, c ∈ (alookup s.muted_participants rc).getD [] ∧ c ≠ conn))
    (hRmem : ∀ e ∈ R, (¬ e.1 = rc ∧ e ∈ s.raised_hands) ∨
      (e.1 = rc ∧ (alookup s.raised_hands rc).isSome = true ∧
        ∀ c ∈ e.2, c ∈ (alookup s.raised_hands rc).getD [] ∧ c ≠ conn))
    (hpresG : ∀ pc ∈ s.presenter_connections, pc.1 = rc → pc.2 ≠ conn) :
    RoomInv { s with
      room_participants := P
      participant_languages := aerase s.participant_languages conn
      muted_participants := M
      raised_hands := R
      connections := aerase s.connections conn } := by
  obtain ⟨⟨hn1, hn2, hn3, hn4, hn5, hn6, hn7⟩, hpd, hmd, hrd, hcr, hmc, hrcc, hpc⟩ := hs
  refine ⟨⟨hn1, hPn, keysNodup_aerase _ hn3, hMn, hRn, hn6, keysNodup_aerase _ hn7⟩,
    ?_, ?_, ?_, ?_, ?_, ?_, ?_⟩
  · intro e he
    rcases hPmem e he with h1 | ⟨pl, hpl, rfl⟩
    · exact hpd e h1
    · exact hpd (rc, pl) (alookup_mem hpl)
  · intro e he
    rw [hPsome]
    rcases hMmem e he with ⟨-, h1⟩ | ⟨hk, h1, -⟩
    · exact hmd e h1
    · rw [hk]
      obtain ⟨lm, hml⟩ := Option.isSome_iff_exists.mp h1
      exact hmd (rc, lm) (alookup_mem hml)
  · intro e he
    rw [hPsome]
    rcases hRmem e he with ⟨-, h1⟩ | ⟨hk, h1, -⟩
    · exact hrd e h1
    · rw [hk]
      obtain ⟨lr, hrl⟩ := Option.isSome_iff_exists.mp h1
      exact hrd (rc, lr) (alookup_mem hrl)
  · intro rp hrp ce hce hmeta
    obtain ⟨hce2, hcene⟩ := (mem_aerase_nodup hn7).mp hce
    rcases hPmem rp hrp with h1 | ⟨pl, hpl, rfl⟩
    · exact hcr rp h1 ce hce2 hmeta
    · have h2 : ce.1 ∈ pl := hcr (rc, pl) (alookup_mem hpl) ce hce2 hmeta
      exact mem_sdiscard.mpr ⟨h2, hcene⟩
  · intro e he c hc2
    rcases hMmem e he with ⟨hne, h1⟩ | ⟨hk, -, h1⟩
    · rw [hPne e.1 hne]
      exact hmc e h1 c hc2
    · obtain ⟨h2, h3⟩ := h1 c hc2
      have h4 : c ∈ (alookup s.room_participants rc).getD [] := by
        cases hml : alookup s.muted_participants rc with
        | none => rw [hml] at h2; simp at h2
        | some lm =>
          rw [hml] at h2
          exact hmc (rc, lm) (alookup_mem hml) c (by simpa using h2)
      rw [hk]
      exact (hPrc c).mpr ⟨h4, h3⟩
  · intro e he c hc2
    rcases hRmem e he with ⟨hne, h1⟩ | ⟨hk, -, h1⟩
    · rw [hPne e.1 hne]
      exact hrcc e h1 c hc2
    · obtain ⟨h2, h3⟩ := h1 c hc2
      have h4 : c ∈ (alookup s.room_participants rc).getD [] := by
        cases hrl : alookup s.raised_hands rc with
        | none => rw [hrl] at h2; simp at h2
        | some lr =>
          rw [hrl] at h2
          exact hrcc (rc, lr) (alookup_mem hrl) c (by simpa using h2)
      rw [hk]
      exact (hPrc c).mpr ⟨h4, h3⟩
  · intro e he
    by_cases hk : e.1 = rc
    · have h1 := hpc e he
      rw [hk]
      exact (hPrc e.2).mpr ⟨by rw [← hk]; exact h1, hpresG e he hk⟩
    · rw [hPne e.1 hk]
      exact hpc e he

theorem roomInv_disconnect (s : PresenterState) (conn : String) (hs : RoomInv s)
    (hwf : ∀ ce ∈ s.connections, ce.1 = conn → ce.2.is_presenter = false →
      ∀ pc ∈ s.presenter_connections, ce.2.room_code = some pc.1 → pc.2 ≠ conn) :
    RoomInv (handle_disconnect s conn) := by
  obtain ⟨⟨hn1, hn2, hn3, hn4, hn5, hn6, hn7⟩, hpd, hmd, hrd, hcr, hmc, hrcc, hpc⟩ := hs
  have hs0 : RoomInv s :=
    ⟨⟨hn1, hn2, hn3, hn4, hn5, hn6, hn7⟩, hpd, hmd, hrd, hcr, hmc, hrcc, hpc⟩
  unfold handle_disconnect
  split
  · exact hs0
  next meta hc =>
    dsimp only
    cases hmr : meta.room_code with
    | none => exact roomInv_eraseConn s conn hs0
    | some rc =>
      dsimp only
      have hpresG : meta.is_presenter = false →
          ∀ pc ∈ s.presenter_connections, pc.1 = rc → pc.2 ≠ conn := by
        intro hpf pc hpcm hpk
        exact hwf (conn, meta) (alookup_mem hc) rfl hpf pc hpcm (by rw [hmr, hpk])
      cases hpl : alookup s.room_participants rc with
      | none =>
        dsimp only
        have hPn := hn2
        have hPne : ∀ k, ¬ k = rc →
            alookup s.room_participants k = alookup s.room_participants k :=
          fun _ _ => rfl
        have hPrc : ∀ c, c ∈ (alookup s.room_participants rc).getD [] ↔
            c ∈ (alookup s.room_participants rc).getD [] ∧ c ≠ conn := by
          intro c
          rw [hpl]
          simp
        have hPmem : ∀ e ∈ s.room_participants, e ∈ s.room_participants ∨
            ∃ pl, alookup s.room_participants rc = some pl ∧
              e = (rc, sdiscard pl conn) := fun e he => Or.inl he
        cases hml : alookup s.muted_participants rc with
        | none =>
          dsimp only
          have hMmem : ∀ e ∈ s.muted_participants,
              (¬ e.1 = rc ∧ e ∈ s.muted_participants) ∨
              (e.1 = rc ∧ (alookup s.muted_participants rc).isSome = true ∧
                ∀ c ∈ e.2, c ∈ (alookup s.muted_participants rc).getD [] ∧ c ≠ conn) := by
            intro e he
            refine Or.inl ⟨fun hk => ?_, he⟩
            have h2 := mem_alookup hn4 he
            rw [hk, hml] at h2
            cases h2
          cases hrl : alookup s.raised_hands rc with
          | none =>
            dsimp only
            have hRmem : ∀ e ∈ s.raised_hands,
                (¬ e.1 = rc ∧ e ∈ s.raised_hands) ∨
                (e.1 = rc ∧ (alookup s.raised_hands rc).isSome = true ∧
                  ∀ c ∈ e.2, c ∈ (alookup s.raised_hands rc).getD [] ∧ c ≠ conn) := by
              intro e he
              refine Or.inl ⟨fun hk => ?_, he⟩
              have h2 := mem_alookup hn5 he
              rw [hk, hrl] at h2
              cases h2
            cases hpres : meta.is_presenter with
            | true =>
              simp only [eq_self_iff_true, if_true]
              dsimp only [cleanup_room]
              exact roomInv_eraseConn _ conn (roomInv_eraseLang _ conn
                (roomInv_cleanup s rc hs0))
            | false =>
              simp only [Bool.false_eq_true, if_false]
              exact roomInv_discard_general s conn rc _ _ _ hs0 hPn hn4 hn5 hPne hPrc
                (fun _ => rfl) hPmem hMmem hRmem (hpresG hpres)
          | some lr =>
            dsimp only
            have hRmem : ∀ e ∈ ainsert s.raised_hands rc (sdiscard lr conn),
                (¬ e.1 = rc ∧ e ∈ s.raised_hands) ∨
                (e.1 = rc ∧ (alookup s.raised_hands rc).isSome = true ∧
                  ∀ c ∈ e.2, c ∈ (alookup s.raised_hands rc).getD [] ∧ c ≠ conn) := by
              intro e he
              rcases (mem_ainsert_nodup hn5).mp he with rfl | ⟨h1, h2⟩
              · refine Or.inr ⟨rfl, by simp [hrl], ?_⟩
                intro c hcm
                obtain ⟨q1, q2⟩ := mem_sdiscard.mp (by simpa using hcm)
                exact ⟨by rw [hrl]; simpa using q1, q2⟩
              · exact Or.inl ⟨h2, h1⟩
            cases hpres : meta.is_presenter with
            | true =>
              simp only [eq_self_iff_true, if_true]
              dsimp only [cleanup_room]
              rw [show aerase (ainsert s.raised_hands rc (sdiscard lr conn)) rc =
                aerase s.raised_hands rc from aerase_ainsert_self hn5]
              exact roomInv_eraseConn _ conn (roomInv_eraseLang _ conn
                (roomInv_cleanup s rc hs0))
            | false =>
              simp only [Bool.false_eq_true, if_false]
              exact roomInv_discard_general s conn rc _ _ _ hs0 hPn hn4
                (keysNodup_ainsert _ _ hn5) hPne hPrc (fun _ => rfl) hPmem hMmem
                hRmem (hpresG hpres)
        | some lm =>
          dsimp only
          have hMmem : ∀ e ∈ ainsert s.muted_participants rc (sdiscard lm conn),
              (¬ e.1 = rc ∧ e ∈ s.muted_participants) ∨
              (e.1 = rc ∧ (alookup s.muted_participants rc).isSome = true ∧
                ∀ c ∈ e.2, c ∈ (alookup s.muted_participants rc).getD [] ∧ c ≠ conn) := by
            intro e he
            rcases (mem_ainsert_nodup hn4).mp he with rfl | ⟨h1, h2⟩
            · refine Or.inr ⟨rfl, by simp [hml], ?_⟩
              intro c hcm
              obtain ⟨q1, q2⟩ := mem_sdiscard.mp (by simpa using hcm)
              exact ⟨by rw [hml]; simpa using q1, q2⟩
            · exact Or.inl ⟨h2, h1⟩
          cases hrl : alookup s.raised_hands rc with
          | none =>
            dsimp only
            have hRmem : ∀ e ∈ s.raised_hands,
                (¬ e.1 = rc ∧ e ∈ s.raised_hands) ∨
                (e.1 = rc ∧ (alookup s.raised_hands rc).isSome = true ∧
                  ∀ c ∈ e.2, c ∈ (alookup s.raised_hands rc).getD [] ∧ c ≠ conn) := by
              intro e he
              refine Or.inl ⟨fun hk => ?_, he⟩
              have h2 := mem_alookup hn5 he
              rw [hk, hrl] at h2
              cases h2
            cases hpres : meta.is_presenter with
            | true =>
              simp only [eq_self_iff_true, if_true]
              dsimp only [cleanup_room]
              rw [show aerase (ainsert s.muted_participants rc (sdiscard lm conn)) rc =
                aerase s.muted_participants rc from aerase_ainsert_self hn4]
              exact roomInv_eraseConn _ conn (roomInv_eraseLang _ conn
                (roomInv_cleanup s rc hs0))
            | false =>
              simp only [Bool.false_eq_true, if_false]
              exact roomInv_discard_general s conn rc _ _ _ hs0 hPn
                (keysNodup_ainsert _ _ hn4) hn5 hPne hPrc (fun _ => rfl) hPmem
                hMmem hRmem (hpresG hpres)
          | some lr =>
            dsimp only
            have hRmem : ∀ e ∈ ainsert s.raised_hands rc (sdiscard lr conn),
                (¬ e.1 = rc ∧ e ∈ s.raised_hands) ∨
                (e.1 = rc ∧ (alookup s.raised_hands rc).isSome = true ∧
                  ∀ c ∈ e.2, c ∈ (alookup s.raised_hands rc).getD [] ∧ c ≠ conn) := by
              intro e he
              rcases (mem_ainsert_nodup hn5).mp he with rfl | ⟨h1, h2⟩
              · refine Or.inr ⟨rfl, by simp [hrl], ?_⟩
                intro c hcm
                obtain ⟨q1, q2⟩ := mem_sdiscard.mp (by simpa using hcm)
                exact ⟨by rw [hrl]; simpa using q1, q2⟩
              · exact Or.inl ⟨h2, h1⟩
            cases hpres : meta.is_presenter with
            | true =>
              simp only [eq_self_iff_true, if_true]
              dsimp only [cleanup_room]
              rw [show aerase (ainsert s.muted_participants rc (sdiscard lm conn)) rc =
                aerase s.muted_participants rc from aerase_ainsert_self hn4]
              rw [show aerase (ainsert s.raised_hands rc (sdiscard lr conn)) rc =
                aerase s.raised_hands rc from aerase_ainsert_self hn5]
              exact roomInv_eraseConn _ conn (roomInv_eraseLang _ conn
                (roomInv_cleanup s rc hs0))
            | false =>
              simp only [Bool.false_eq_true, if_false]
              exact roomInv_discard_general s conn rc _ _ _ hs0 hPn
                (keysNodup_ainsert _ _ hn4) (keysNodup_ainsert _ _ hn5) hPne hPrc
                (fun _ => rfl) hPmem hMmem hRmem (hpresG hpres)
      | some pl =>
        dsimp only
        have hPn := keysNodup_ainsert rc (sdiscard pl conn) hn2
        have hPne : ∀ k, ¬ k = rc →
            alookup (ainsert s.room_participants rc (sdiscard pl conn)) k =
              alookup s.room_participants k :=
          fun k hk => alookup_ainsert_ne (fun hh => hk hh.symm)
        have hPrc : ∀ c, c ∈ (alookup (ainsert s.room_participants rc
              (sdiscard pl conn)) rc).getD [] ↔
            c ∈ (alookup s.room_participants rc).getD [] ∧ c ≠ conn := by
          intro c
          rw [alookup_ainsert_self, hpl]
          simpa using mem_sdiscard
        have hPsome : ∀ k, (alookup (ainsert s.room_participants rc
              (sdiscard pl conn)) k).isSome =
            (alookup s.room_participants k).isSome := by
          intro k
          by_cases hk : k = rc
          · rw [hk, alookup_ainsert_self, hpl]
            rfl
          · rw [alookup_ainsert_ne (fun hh => hk hh.symm)]
        have hPmem : ∀ e ∈ ainsert s.room_participants rc (sdiscard pl conn),
            e ∈ s.room_participants ∨
            ∃ pl2, alookup s.room_participants rc = some pl2 ∧
              e = (rc, sdiscard pl2 conn) := by
          intro e he
          rcases (mem_ainsert_nodup hn2).mp he with rfl | ⟨h1, -⟩
          · exact Or.inr ⟨pl, hpl, rfl⟩
          · exact Or.inl h1
        cases hml : alookup s.muted_participants rc with
        | none =>
          dsimp only
          have hMmem : ∀ e ∈ s.muted_participants,
              (¬ e.1 = rc ∧ e ∈ s.muted_participants) ∨
              (e.1 = rc ∧ (alookup s.muted_participants rc).isSome = true ∧
                ∀ c ∈ e.2, c ∈ (alookup s.muted_participants rc).getD [] ∧ c ≠ conn) := by
            intro e he
            refine Or.inl ⟨fun hk => ?_, he⟩
            have h2 := mem_alookup hn4 he
            rw [hk, hml] at h2
            cases h2
          cases hrl : alookup s.raised_hands rc with
          | none =>
            dsimp only
            have hRmem : ∀ e ∈ s.raised_hands,
                (¬ e.1 = rc ∧ e ∈ s.raised_hands) ∨
                (e.1 = rc ∧ (alookup s.raised_hands rc).isSome = true ∧
                  ∀ c ∈ e.2, c ∈ (alookup s.raised_hands rc).getD [] ∧ c ≠ conn) := by
              intro e he
              refine Or.inl ⟨fun hk => ?_, he⟩
              have h2 := mem_alookup hn5 he
              rw [hk, hrl] at h2
              cases h2
            cases hpres : meta.is_presenter with
            | true =>
              simp only [eq_self_iff_true, if_true]
              dsimp only [cleanup_room]
              rw [show aerase (ainsert s.room_participants rc (sdiscard pl conn)) rc =
                aerase s.room_participants rc from aerase_ainsert_self hn2]
              exact roomInv_eraseConn _ conn (roomInv_eraseLang _ conn
                (roomInv_cleanup s rc hs0))
            | false =>
              simp only [Bool.false_eq_true, if_false]
              exact roomInv_discard_general s conn rc _ _ _ hs0 hPn hn4 hn5 hPne
                hPrc hPsome hPmem hMmem hRmem (hpresG hpres)
          | some lr =>
            dsimp only
            have hRmem : ∀ e ∈ ainsert s.raised_hands rc (sdiscard lr conn),
                (¬ e.1 = rc ∧ e ∈ s.raised_hands) ∨
                (e.1 = rc ∧ (alookup s.raised_hands rc).isSome = true ∧
                  ∀ c ∈ e.2, c ∈ (alookup s.raised_hands rc).getD [] ∧ c ≠ conn) := by
              intro e he
              rcases (mem_ainsert_nodup hn5).mp he with rfl | ⟨h1, h2⟩
              · refine Or.inr ⟨rfl, by simp [hrl], ?_⟩
                intro c hcm
                obtain ⟨q1, q2⟩ := mem_sdiscard.mp (by simpa using hcm)
                exact ⟨by rw [hrl]; simpa using q1, q2⟩
              · exact Or.inl ⟨h2, h1⟩
            cases hpres : meta.is_presenter with
            | true =>
              simp only [eq_self_iff_true, if_true]
              dsimp only [cleanup_room]
              rw [show aerase (ainsert s.room_participants rc (sdiscard pl conn)) rc =
                aerase s.room_participants rc from aerase_ainsert_self hn2]
              rw [show aerase (ainsert s.raised_hands rc (sdiscard lr conn)) rc =
                aerase s.raised_hands rc from aerase_ainsert_self hn5]
              exact roomInv_eraseConn _ conn (roomInv_eraseLang _ conn
                (roomInv_cleanup s rc hs0))
            | false =>
              simp only [Bool.false_eq_true, if_false]
              exact roomInv_discard_general s conn rc _ _ _ hs0 hPn hn4
                (keysNodup_ainsert _ _ hn5) hPne hPrc hPsome hPmem hMmem hRmem
                (hpresG hpres)
        | some lm =>
          dsimp only
          have hMmem : ∀ e ∈ ainsert s.muted_participants rc (sdiscard lm conn),
              (¬ e.1 = rc ∧ e ∈ s.muted_participants) ∨
              (e.1 = rc ∧ (alookup s.muted_participants rc).isSome = true ∧
                ∀ c ∈ e.2, c ∈ (alookup s.muted_participants rc).getD [] ∧ c ≠ conn) := by
            intro e he
            rcases (mem_ainsert_nodup hn4).mp he with rfl | ⟨h1, h2⟩
            · refine Or.inr ⟨rfl, by simp [hml], ?_⟩
              intro c hcm
              obtain ⟨q1, q2⟩ := mem_sdiscard.mp (by simpa using hcm)
              exact ⟨by rw [hml]; simpa using q1, q2⟩
            · exact Or.inl ⟨h2, h1⟩
          cases hrl : alookup s.raised_hands rc with
          | none =>
            dsimp only
            have hRmem : ∀ e ∈ s.raised_hands,
                (¬ e.1 = rc ∧ e ∈ s.raised_hands) ∨
                (e.1 = rc ∧ (alookup s.raised_hands rc).isSome = true ∧
                  ∀ c ∈ e.2, c ∈ (alookup s.raised_hands rc).getD [] ∧ c ≠ conn) := by
              intro e he
              refine Or.inl ⟨fun hk => ?_, he⟩
              have h2 := mem_alookup hn5 he
              rw [hk, hrl] at h2
              cases h2
            cases hpres : meta.is_presenter with
            | true =>
              simp only [eq_self_iff_true, if_true]
              dsimp only [cleanup_room]
              rw [show aerase (ainsert s.room_participants rc (sdiscard pl conn)) rc =
                aerase s.room_participants rc from aerase_ainsert_self hn2]
              rw [show aerase (ainsert s.muted_participants rc (sdiscard lm conn)) rc =
                aerase s.muted_participants rc from aerase_ainsert_self hn4]
              exact roomInv_eraseConn _ conn (roomInv_eraseLang _ conn
                (roomInv_cleanup s rc hs0))
            | false =>
              simp only [Bool.false_eq_true, if_false]
              exact roomInv_discard_general s conn rc _ _ _ hs0 hPn
                (keysNodup_ainsert _ _ hn4) hn5 hPne hPrc hPsome hPmem hMmem hRmem
                (hpresG hpres)
          | some lr =>
            dsimp only
            have hRmem : ∀ e ∈ ainsert s.raised_hands rc (sdiscard lr conn),
                (¬ e.1 = rc ∧ e ∈ s.raised_hands) ∨
                (e.1 = rc ∧ (alookup s.raised_hands rc).isSome = true ∧
                  ∀ c ∈ e.2, c ∈ (alookup s.raised_hands rc).getD [] ∧ c ≠ conn) := by
              intro e he
              rcases (mem_ainsert_nodup hn5).mp he with rfl | ⟨h1, h2⟩
              · refine Or.inr ⟨rfl, by simp [hrl], ?_⟩
                intro c hcm
                obtain ⟨q1, q2⟩ := mem_sdiscard.mp (by simpa using hcm)
                exact ⟨by rw [hrl]; simpa using q1, q2⟩
              · exact Or.inl ⟨h2, h1⟩
            cases hpres : meta.is_presenter with
            | true =>
              simp only [eq_self_iff_true, if_true]
              dsimp only [cleanup_room]
              rw [show aerase (ainsert s.room_participants rc (sdiscard pl conn)) rc =
                aerase s.room_participants rc from aerase_ainsert_self hn2]
              rw [show aerase (ainsert s.muted_participants rc (sdiscard lm conn)) rc =
                aerase s.muted_participants rc from aerase_ainsert_self hn4]
              rw [show aerase (ainsert s.raised_hands rc (sdiscard lr conn)) rc =
                aerase s.raised_hands rc from aerase_ainsert_self hn5]
              exact roomInv_eraseConn _ conn (roomInv_eraseLang _ conn
                (roomInv_cleanup s rc hs0))
            | false =>
              simp only [Bool.false_eq_true, if_false]
              exact roomInv_discard_general s conn rc _ _ _ hs0 hPn
                (keysNodup_ainsert _ _ hn4) (keysNodup_ainsert _ _ hn5) hPne hPrc
                hPsome hPmem hMmem hRmem (hpresG hpres)

theorem roomInv_endPresentation (s : PresenterState) (conn : String)
    (hs : RoomInv s) : RoomInv (handle_end_presentation s conn) := by
  unfold handle_end_presentation
  split
  · exact hs
  next meta hc =>
    split
    · exact hs
    split
    · exact hs
    next room_code hm =>
      split
      · exact roomInv_cleanup s room_code hs
      · exact hs

theorem roomInv_pstep (s : PresenterState) (e : PEvent) (hs : RoomInv s)
    (he : WFEvent s e) : RoomInv (pstep s e) := by
  cases e with
  | connect conn => exact roomInv_connect s conn hs
  | join conn room_code participant_name selected_language is_presenter =>
    exact roomInv_join s conn room_code participant_name selected_language
      is_presenter hs he
  | mute conn participant_id => exact roomInv_mute s conn participant_id hs he
  | unmute conn participant_id => exact roomInv_unmute s conn participant_id hs
  | raiseHand conn raised => exact roomInv_raiseHand s conn raised hs
  | allowSpeak conn participant_id => exact roomInv_allowSpeak s conn participant_id hs
  | updateLanguage conn language => exact roomInv_updateLanguage s conn language hs
  | endPresentation conn => exact roomInv_endPresentation s conn hs
  | disconnect conn => exact roomInv_disconnect s conn hs he

theorem roomInv_of_wfReachable {s : PresenterState} (h : WFReachable s) :
    RoomInv s := by
  induction h with
  | init => exact roomInv_init
  | step hs he ih => exact roomInv_pstep _ _ ih he

/-- C8 (counterexample): the handlers do not maintain the claimed room
consistency over arbitrary event sequences.  A presenter muting an id that is
not a participant breaks the muted-set containment; tearing a room down leaves
the language map's entries behind, breaking the language-key containment even
though every event of that trace satisfies `WFEvent`; a presenter that re-joins
its room as a non-presenter and then disconnects leaves the tracked presenter
dangling; and a survivor of a torn-down and lazily re-created room can raise a
hand without being a participant of the new room. -/
theorem room_consistency_not_invariant :
    ¬ RoomConsistent (prun [.connect "p", .join "p" "R" "P" "en" true,
        .mute "p" "ghost"]) ∧
    (WFReachable (prun [.connect "p", .join "p" "R" "P" "en" true,
        .endPresentation "p"]) ∧
      ¬ languageKeysConsistent (prun [.connect "p", .join "p" "R" "P" "en" true,
        .endPresentation "p"])) ∧
    ¬ presenterConsistent (prun [.connect "p", .join "p" "R" "P" "en" true,
        .join "p" "R" "P" "en" false, .disconnect "p"]) ∧
    ¬ raisedConsistent (prun [.connect "a", .connect "p",
        .join "p" "R" "P" "en" true, .join "a" "R" "A" "en" false,
        .endPresentation "p", .join "p" "R" "P" "en" true,
        .raiseHand "a" true]) := by
  refine ⟨?_, ⟨?_, ?_⟩, ?_, ?_⟩
  · unfold RoomConsistent mutedConsistent raisedConsistent presenterConsistent
      languageKeysConsistent
    decide
  · show WFReachable (pstep (pstep (pstep PresenterState.init (.connect "p"))
      (.join "p" "R" "P" "en" true)) (.endPresentation "p"))
    exact WFReachable.step
      (WFReachable.step (WFReachable.step WFReachable.init trivial)
        (Or.inr (by decide)))
      trivial
  · unfold languageKeysConsistent
    decide
  · unfold presenterConsistent
    decide
  · unfold raisedConsistent
    decide

/-- C8 (amended): in every state reachable from a fresh handler through
well-formed events — mutes that target current participants, fresh-room joins
that do not race stale metadata of a torn-down room of the same code, and
disconnects of non-presenter-flagged connections that are not the tracked
presenter — every member of every room's muted set and raised-hand set is a
participant of that room, and every room's designated presenter is a
participant.  (The language-key containment is not restored by these
conditions: `_cleanup_room` never touches `participant_languages`, as the
counterexample's second trace shows.) -/
theorem room_invariant_wf_reachable (s : PresenterState) (h : WFReachable s) :
    mutedConsistent s ∧ raisedConsistent s ∧ presenterConsistent s := by
  obtain ⟨-, -, -, -, -, hmc, hrc, hpc⟩ := roomInv_of_wfReachable h
  exact ⟨hmc, hrc, hpc⟩

theorem room_invariant_wf_reachable_witness :
    mutedConsistent (pstep (pstep PresenterState.init (.connect "p"))
        (.join "p" "R" "P" "en" true)) ∧
      raisedConsistent (pstep (pstep PresenterState.init (.connect "p"))
        (.join "p" "R" "P" "en" true)) ∧
      presenterConsistent (pstep (pstep PresenterState.init (.connect "p"))
        (.join "p" "R" "P" "en" true)) :=
  room_invariant_wf_reachable _
    (WFReachable.step (WFReachable.step WFReachable.init trivial)
      (Or.inr (by decide)))

end VidLiSync
